import Mathlib

/-!
Shallow embedding of wilhelmsen/python-easy-ftp (src/easy_ftp.py) in Lean 4,
with theorems settling the frozen claims about its specification.

Python exceptions are modelled by the inductive type Exc and fallible code by
Except Exc.  Wall-clock time is modelled by integers, matching the source,
which truncates time.time() with int().  The process-wide SIGALRM alarm used
by the timeout decorator is modelled as explicit state.  The local filesystem
is modelled as an association list from file name to file size (the only
attribute the source inspects).
-/

namespace EasyFtp

/-- Python exceptions raised or handled by src/easy_ftp.py.
socketError models socket.error; retryError models RetryError (its payload is
the attempt count appearing in the message "Retry: Failed %i times.");
easyFtpError models EasyFtpError; indexError and valueError model the built-in
IndexError / ValueError; timeoutError models TimeoutError; recursionLimit is a
model artifact marking exhaustion of the fuel bounding the unbounded
self-recursion of download_file. -/
inductive Exc where
  | socketError (code : Nat)
  | retryError (attempts : Nat)
  | easyFtpError (msg : String)
  | indexError
  | valueError
  | timeoutError
  | otherError (tag : Nat)
  | recursionLimit
deriving DecidableEq, Repr

/-- The retry decorator (easy_ftp.py line 122) catches socket.error specially:
such errors are session-fatal and are re-raised without further attempts. -/
def isSocketErr : Exc → Bool
  | Exc.socketError _ => true
  | _ => false

/-! ### Retry decorator (easy_ftp.py lines 98-136)

The wrapped operation is modelled as a stream f : Nat → Except Exc A giving
the outcome of the k-th invocation (counter starts at 1, as in the source).
retryRun returns (result, number of invocations, list of backoff sleeps). -/

/-- Backoff sleep before the next attempt (line 130):
sleep_factor * counter + sleep_factor * (counter - 1) * 10. -/
def sleepTime (sleepFactor counter : Nat) : Nat :=
  sleepFactor * counter + sleepFactor * (counter - 1) * 10

/-- The while-loop of the retry decorator (lines 114-134).  counter is the
current attempt number, remaining the number of iterations still allowed by
the guard counter <= number_of_retries.  When remaining reaches 0 the loop
exits and RetryError is raised carrying only the attempt count (line 134). -/
def retryAux (f : Nat → Except Exc α) (sf : Nat) (n : Nat) :
    Nat → Nat → Except Exc α × Nat × List Nat
  | _, 0 => (Except.error (Exc.retryError n), 0, [])
  | counter, remaining + 1 =>
    match f counter with
    | Except.ok a => (Except.ok a, 1, [])
    | Except.error e =>
      if isSocketErr e then (Except.error e, 1, [])
      else
        ((retryAux f sf n (counter + 1) remaining).1,
         (retryAux f sf n (counter + 1) remaining).2.1 + 1,
         (if sf > 0 then [sleepTime sf counter] else [])
           ++ (retryAux f sf n (counter + 1) remaining).2.2)

/-- retry(number_of_retries, sleep_factor) applied to an operation and then
called once.  number_of_retries = None or 0 returns the function unchanged
(line 109): one invocation, result as-is, no sleeps. -/
def retryRun (numberOfRetries : Option Nat) (sf : Nat)
    (f : Nat → Except Exc α) : Except Exc α × Nat × List Nat :=
  match numberOfRetries with
  | none => (f 1, 1, [])
  | some 0 => (f 1, 1, [])
  | some (n + 1) => retryAux f sf (n + 1) 1 (n + 1)

/-! ### Timeout decorator (easy_ftp.py lines 62-95)

The decorator manipulates the single process-wide SIGALRM alarm:
signal.signal(SIGALRM, handler) installs a fresh handler, signal.alarm(seconds)
replaces whatever alarm was pending, and the finally block runs
signal.alarm(0), cancelling whatever alarm is pending at that moment.
SigState models that global state: alarm = 0 means no alarm pending, handler
identifies the currently installed SIGALRM handler. -/

structure SigState where
  alarm : Nat
  handler : Nat
deriving DecidableEq, Repr

/-- timeout(seconds) around an operation f (which may itself manipulate the
alarm state, e.g. by containing nested timeout-wrapped calls).  seconds = 0
returns the function unchanged (line 72, with None modelled as 0).  Otherwise
the wrapper installs its handler hid, arms the alarm with seconds, runs f, and
in a finally step sets the alarm to 0 on every exit path (line 92), success or
exception alike; the previous handler and any previously pending alarm are not
restored. -/
def timeoutWrap (seconds : Nat) (hid : Nat)
    (f : SigState → Except Exc α × SigState) (st : SigState) :
    Except Exc α × SigState :=
  if seconds = 0 then f st
  else
    let st1 : SigState := { alarm := seconds, handler := hid }
    let r := f st1
    (r.1, { r.2 with alarm := 0 })

/-! ### Cooldown pacing (easy_ftp.py lines 227-265)

Python truthiness: both self._cooldown_seconds and self._cooldown_timestamp
are used under "if x:", so None and 0 behave alike (falsy).  Timestamps are
int(time.time()) values, modelled as integers. -/

/-- Truthiness of an optional integer field as Python evaluates it. -/
def optTruthy : Option Int → Bool
  | none => false
  | some k => k ≠ 0

/-- Cooldown-related state of an FTP instance: _cooldown_seconds (set in the
constructor, default None) and _cooldown_timestamp (initially None). -/
structure CdState where
  cooldownSeconds : Option Int
  cooldownTimestamp : Option Int
deriving DecidableEq, Repr

/-- The method _cooldown_get_seconds_since_last_timestamp (lines 227-235):
int(time.time()) - timestamp when a truthy timestamp is set, else 0. -/
def cooldownSecondsSince (st : CdState) (now : Int) : Int :=
  if optTruthy st.cooldownTimestamp then
    now - st.cooldownTimestamp.getD 0
  else 0

/-- Number of seconds _cooldown (lines 237-255) sleeps when invoked at
integer time now: the positive part of cooldown_seconds minus the elapsed
time since the last timestamp, and 0 when either field is falsy. -/
def cooldownSleepTime (st : CdState) (now : Int) : Int :=
  if optTruthy st.cooldownSeconds then
    if optTruthy st.cooldownTimestamp then
      if st.cooldownSeconds.getD 0 - cooldownSecondsSince st now > 0 then
        st.cooldownSeconds.getD 0 - cooldownSecondsSince st now
      else 0
    else 0
  else 0

/-- The method _cooldown_set_timestamp (lines 258-265): stamps now, but only when
cooldown_seconds is truthy. -/
def cooldownSetTimestamp (st : CdState) (now : Int) : CdState :=
  if optTruthy st.cooldownSeconds then { st with cooldownTimestamp := some now }
  else st

/-- One network action following the cooldown protocol of the source
(e.g. the body of download_using_ftplib, lines 373-384): invoked at time
now, it first runs _cooldown, then performs the network work for duration
time units, and in a finally step runs _cooldown_set_timestamp with the end
time.  Returns begin time, end time and the updated state. -/
def runCooldownAction (st : CdState) (now duration : Int) :
    Int × Int × CdState :=
  (now + cooldownSleepTime st now,
   now + cooldownSleepTime st now + duration,
   cooldownSetTimestamp st (now + cooldownSleepTime st now + duration))

/-- The opening of the inner function of list_contents (easy_ftp.py lines
628-638): the current working directory is read with self.ftp.pwd()
immediately at invocation (line 635) — a network round-trip on the control
channel issued before self._cooldown() runs (line 638) — and only then does
the cooldown sleep happen.  Given the invocation time and the duration of
the pwd round-trip, returns the begin time of the pwd action and the time
at which the subsequent cooldown sleep (computed from the state at the
pwd's end) finishes. -/
def listContentsOpening (st : CdState) (now pwdDur : Int) : Int × Int :=
  (now, now + pwdDur + cooldownSleepTime st (now + pwdDur))

/-! ### Listing-line parser: FtpEntry (easy_ftp.py lines 139-159)

content_line.split(None, 10) is Python whitespace splitting with at most 10
splits: leading whitespace is skipped, runs of whitespace separate fields,
and once 10 splits have been made the remainder of the line (with its
internal whitespace, minus leading whitespace) is the final element. -/

/-- Whitespace characters for Python str.split(None, ...). -/
def isWS (c : Char) : Bool :=
  c = ' ' ∨ c = '\t' ∨ c = '\n' ∨ c = '\r'

/-- Drop leading whitespace. -/
def dropWS : List Char → List Char
  | [] => []
  | c :: cs => if isWS c then dropWS cs else c :: cs

/-- Split off the leading maximal run of non-whitespace characters. -/
def takeWord : List Char → List Char × List Char
  | [] => ([], [])
  | c :: cs =>
    if isWS c then ([], c :: cs)
    else
      let r := takeWord cs
      (c :: r.1, r.2)

/-- Python s.split(None, maxsplit) on a character list: after maxsplit
splits, the remainder (stripped of leading whitespace) is kept whole; a
remainder that is all whitespace contributes nothing. -/
def pySplitAux : Nat → List Char → List (List Char)
  | 0, cs =>
    match dropWS cs with
    | [] => []
    | c :: cs' => [c :: cs']
  | m + 1, cs =>
    match dropWS cs with
    | [] => []
    | c :: cs' =>
      (takeWord (c :: cs')).1 :: pySplitAux m (takeWord (c :: cs')).2

/-- Python s.split(None, maxsplit) on strings. -/
def pySplitN (s : String) (maxsplit : Nat) : List String :=
  (pySplitAux maxsplit s.toList).map (fun l => String.mk l)

/-- Python s.split(None): since a string of length L can be split at most L
times, a split budget of L realises the unlimited whitespace split.  These
are the claim's "whitespace-separated fields". -/
def pyFields (s : String) : List String :=
  pySplitN s s.toList.length

/-- Accumulate the value of a digit string; none on any non-digit. -/
def digitsValAux : List Char → Nat → Option Nat
  | [], acc => some acc
  | c :: cs, acc =>
    if c.isDigit then digitsValAux cs (acc * 10 + (c.toNat - 48))
    else none

/-- Python long(s) on a string (line 157): surrounding whitespace is
tolerated, an optional sign is followed by at least one digit; anything else
raises ValueError (modelled as none). -/
def pyLong (s : String) : Option Int :=
  let cs := (dropWS (dropWS s.toList).reverse).reverse
  match cs with
  | [] => none
  | '-' :: rest =>
    match rest with
    | [] => none
    | _ => (digitsValAux rest 0).map (fun n => -(n : Int))
  | '+' :: rest =>
    match rest with
    | [] => none
    | _ => (digitsValAux rest 0).map (fun n => (n : Int))
  | _ => (digitsValAux cs 0).map (fun n => (n : Int))

/-- The attributes FtpEntry.__init__ (lines 143-159) stores: owner :=
parts[2], group := parts[3], size := long(parts[4]), name := parts[-1],
type := parts[0][0], where parts = content_line.split(None, 10). -/
structure FtpEntry where
  remote_dir : String
  owner : String
  group : String
  size : Int
  name : String
  type : Char
deriving DecidableEq, Repr

/-- FtpEntry.__init__ as a fallible constructor.  Missing list indices raise
IndexError and a non-numeric size field raises ValueError, in the order the
source evaluates the attributes (parts[2], parts[3], long(parts[4]),
parts[-1], parts[0][0]). -/
def ftpEntryInit (content_line remote_dir : String) : Except Exc FtpEntry :=
  let parts := pySplitN content_line 10
  match parts.get? 2 with
  | none => Except.error Exc.indexError
  | some owner =>
    match parts.get? 3 with
    | none => Except.error Exc.indexError
    | some group =>
      match parts.get? 4 with
      | none => Except.error Exc.indexError
      | some sizeStr =>
        match pyLong sizeStr with
        | none => Except.error Exc.valueError
        | some size =>
          match parts.getLast? with
          | none => Except.error Exc.indexError
          | some name =>
            match parts.head? with
            | none => Except.error Exc.indexError
            | some f0 =>
              match f0.toList.head? with
              | none => Except.error Exc.indexError
              | some ty =>
                Except.ok { remote_dir := remote_dir, owner := owner,
                            group := group, size := size, name := name,
                            type := ty }

/-! ### get_entries (easy_ftp.py lines 602-615)

For each listing line, content_line[0] is inspected (raising IndexError on an
empty line); lines whose first character is not one of -, d, l are skipped;
for the others FtpEntry is constructed, and any exception it raises
propagates, aborting the whole listing. -/

/-- The loop body of get_entries over the lines returned by list_contents. -/
def getEntriesFromLines (remote_path : String) :
    List String → Except Exc (List FtpEntry)
  | [] => Except.ok []
  | line :: rest =>
    match line.toList.head? with
    | none => Except.error Exc.indexError
    | some c =>
      if c = '-' ∨ c = 'd' ∨ c = 'l' then
        match ftpEntryInit line remote_path with
        | Except.error e => Except.error e
        | Except.ok entry =>
          match getEntriesFromLines remote_path rest with
          | Except.error e => Except.error e
          | Except.ok entries => Except.ok (entry :: entries)
      else getEntriesFromLines remote_path rest

/-- get_file_size (easy_ftp.py lines 326-338) applied to the parsed entries
of the parent directory: return the size of the entry matching the basename
if its type is "-", raise EasyFtpError("... is not a file ...") for a
matching entry of another type, raise EasyFtpError("File ... not found.")
when no entry matches. -/
def get_file_size_pure (basename : String) :
    List FtpEntry → Except Exc Int
  | [] => Except.error (Exc.easyFtpError ("File, " ++ basename ++ " not found."))
  | entry :: rest =>
    if entry.name = basename then
      if entry.type = '-' then Except.ok entry.size
      else Except.error (Exc.easyFtpError (entry.name ++ " is not a file."))
    else get_file_size_pure basename rest

/-! ### download_file (easy_ftp.py lines 341-504)

The local filesystem is an association list from file name to size (the
source only ever inspects existence via os.path.isfile and size via
os.path.getsize).  The remote side and the transports are oracles collected
in World: fileSize gives the deterministic outcome of self.get_file_size for
a remote path (the whole listing-lookup chain), urlAttempt / ftpAttempt give
the outcome of the k-th urllib2 / ftplib transfer attempt, and setupResult
the outcome of self.setup().  An event trace records, in order, the network
operations performed.  Backoff sleeps and the timeout alarms are orthogonal
to these claims and are not threaded through this model. -/

/-- The local filesystem: file name to file size. -/
def Fs : Type := List (String × Nat)

def fsLookup : Fs → String → Option Nat
  | [], _ => none
  | (k, v) :: rest, name => if k = name then some v else fsLookup rest name

def fsRemove : Fs → String → Fs
  | [], _ => []
  | (k, v) :: rest, name =>
    if k = name then fsRemove rest name else (k, v) :: fsRemove rest name

def fsSet (fs : Fs) (name : String) (size : Nat) : Fs :=
  (name, size) :: fsRemove fs name

/-- shutil.move src dst: dst receives src's content, src disappears.
A no-op when src does not exist (the source never reaches that case). -/
def fsMove (fs : Fs) (src dst : String) : Fs :=
  match fsLookup fs src with
  | none => fs
  | some b => fsSet (fsRemove fs src) dst b

/-- Outcome of one transfer attempt: success leaves the temp file holding
bytes; failure raises e, leaving the temp file holding leftover bytes when
the failure struck after the temp file was opened (some b), or leaving the
filesystem untouched when it struck before (none, e.g. urlopen failing). -/
inductive TransferOutcome where
  | success (bytes : Nat)
  | failure (e : Exc) (leftover : Option Nat)
deriving DecidableEq, Repr

/-- Network events recorded by the download model. -/
inductive Ev where
  | urlTransfer
  | ftpTransfer
  | sizeLookup (path : String)
  | setupCall
deriving DecidableEq, Repr

/-- The oracles describing the remote end and the transports. -/
structure World where
  fileSize : String → Except Exc Int
  urlAttempt : Nat → TransferOutcome
  ftpAttempt : Nat → TransferOutcome
  setupResult : Except Exc Unit

/-- Mutable state threaded through a download: the local filesystem, the
count of transfer attempts already made on each transport (indexing the
oracles), the event trace, and whether self.ftp is set. -/
structure DlState where
  fs : Fs
  urlCount : Nat
  ftpCount : Nat
  events : List Ev
  hasFtp : Bool

/-- The temp file name used on both transport paths (lines 364 and 424):
"%s.tmp" % destination_filename. -/
def tmpName (dest : String) : String := dest ++ ".tmp"

/-- self.get_file_size(remote_file_address) as the download code calls it:
consults the oracle and records the listing lookup. -/
def getFileSizeM (w : World) (path : String) (st : DlState) :
    Except Exc Int × DlState :=
  (w.fileSize path, { st with events := st.events ++ [Ev.sizeLookup path] })

/-- The urllib2 transfer (lines 429-442): urlopen + copyfileobj into the temp
file, consuming the next urlAttempt outcome. -/
def urlTransferM (w : World) (tmp : String) (st : DlState) :
    Except Exc Unit × DlState :=
  let st1 := { st with urlCount := st.urlCount + 1,
                       events := st.events ++ [Ev.urlTransfer] }
  match w.urlAttempt st.urlCount with
  | TransferOutcome.success b =>
    (Except.ok (), { st1 with fs := fsSet st1.fs tmp b })
  | TransferOutcome.failure e leftover =>
    (Except.error e,
     { st1 with fs := match leftover with
                      | some b => fsSet st1.fs tmp b
                      | none => st1.fs })

/-- The ftplib transfer (lines 373-384): open the temp file and retrbinary
into it, consuming the next ftpAttempt outcome. -/
def ftpTransferM (w : World) (tmp : String) (st : DlState) :
    Except Exc Unit × DlState :=
  let st1 := { st with ftpCount := st.ftpCount + 1,
                       events := st.events ++ [Ev.ftpTransfer] }
  match w.ftpAttempt st.ftpCount with
  | TransferOutcome.success b =>
    (Except.ok (), { st1 with fs := fsSet st1.fs tmp b })
  | TransferOutcome.failure e leftover =>
    (Except.error e,
     { st1 with fs := match leftover with
                      | some b => fsSet st1.fs tmp b
                      | none => st1.fs })

/-- The verification block both transports share (lines 386-399 and
444-457): if the temp file exists, look up the remote size via
get_file_size (an exception here propagates to the retry decorator) and
compare with the temp file's size; on a match move the temp file onto the
destination and return True, otherwise return False. -/
def verifyAndPromote (w : World) (remote dest : String) (st : DlState) :
    Except Exc Bool × DlState :=
  match fsLookup st.fs (tmpName dest) with
  | none => (Except.ok false, st)
  | some localSize =>
    match getFileSizeM w remote st with
    | (Except.error e, st2) => (Except.error e, st2)
    | (Except.ok remoteSize, st2) =>
      if (localSize : Int) = remoteSize then
        (Except.ok true, { st2 with fs := fsMove st2.fs (tmpName dest) dest })
      else (Except.ok false, st2)

/-- One attempt of download_using_urllib2 (lines 403-457), before the retry
decorator: transfer into the temp file (any exception propagates to the
decorator), then verify and promote. -/
def downloadUsingUrllib2Once (w : World) (remote dest : String)
    (st : DlState) : Except Exc Bool × DlState :=
  match urlTransferM w (tmpName dest) st with
  | (Except.error e, st1) => (Except.error e, st1)
  | (Except.ok _, st1) => verifyAndPromote w remote dest st1

/-- One attempt of download_using_ftplib (lines 362-399), before the retry
decorator: first delete a pre-existing temp file (lines 368-370), then
transfer and verify as in the urllib2 attempt. -/
def downloadUsingFtplibOnce (w : World) (remote dest : String)
    (st : DlState) : Except Exc Bool × DlState :=
  match ftpTransferM w (tmpName dest) { st with fs := fsRemove st.fs (tmpName dest) } with
  | (Except.error e, st1) => (Except.error e, st1)
  | (Except.ok _, st1) => verifyAndPromote w remote dest st1

/-- The retry decorator's loop (lines 114-134) around a stateful body, as it
executes inside download_file: socket errors propagate at once, other errors
trigger another attempt, exhaustion raises RetryError. -/
def retryExecAux (body : DlState → Except Exc α × DlState) (n : Nat) :
    Nat → DlState → Except Exc α × DlState
  | 0, st => (Except.error (Exc.retryError n), st)
  | remaining + 1, st =>
    match body st with
    | (Except.ok a, st1) => (Except.ok a, st1)
    | (Except.error e, st1) =>
      if isSocketErr e then (Except.error e, st1)
      else retryExecAux body n remaining st1

/-- retry(number_of_retries) applied to a stateful body and invoked once:
None or 0 runs the body unchanged (line 109). -/
def retryExec (numberOfRetries : Option Nat)
    (body : DlState → Except Exc α × DlState) (st : DlState) :
    Except Exc α × DlState :=
  match numberOfRetries with
  | none => body st
  | some 0 => body st
  | some (n + 1) => retryExecAux body (n + 1) (n + 1) st

/-- self.setup() as invoked from download_file (line 477): consult the
oracle; on success self.ftp is set. -/
def runSetup (w : World) (st : DlState) : Except Exc Unit × DlState :=
  let st1 := { st with events := st.events ++ [Ev.setupCall] }
  match w.setupResult with
  | Except.ok _ => (Except.ok (), { st1 with hasFtp := true })
  | Except.error e => (Except.error e, st1)

/-- The part of download_file after the urllib2 section (lines 476-504):
ensure self.ftp via setup (exceptions propagate, line 477 is outside any
try), run the retry-wrapped ftplib attempt, hand an escaping socket error to
recurse (the recursive re-invocation of download_file, line 492, whose
result or exception is passed through), swallow other exceptions, and
finally return False (line 504). -/
def downloadRest (w : World) (numberOfRetries : Option Nat)
    (recurse : DlState → Except Exc Bool × DlState)
    (remote dest : String) (st : DlState) :
    Except Exc Bool × DlState :=
  let ensured : Except Exc Unit × DlState :=
    if st.hasFtp then (Except.ok (), st) else runSetup w st
  match ensured with
  | (Except.error e, st1) => (Except.error e, st1)
  | (Except.ok _, st1) =>
    match retryExec numberOfRetries (downloadUsingFtplibOnce w remote dest) st1 with
    | (Except.ok true, st2) => (Except.ok true, st2)
    | (Except.ok false, st2) => (Except.ok false, st2)
    | (Except.error e, st2) =>
      if isSocketErr e then recurse st2
      else (Except.ok false, st2)

/-- The transport section of download_file (lines 468-504): run the
retry-wrapped urllib2 attempt, returning True if it returns True and
otherwise swallowing any exception (lines 468-473), then continue with
downloadRest. -/
def downloadTransports (w : World) (numberOfRetries : Option Nat)
    (recurse : DlState → Except Exc Bool × DlState)
    (remote dest : String) (st : DlState) :
    Except Exc Bool × DlState :=
  match retryExec numberOfRetries (downloadUsingUrllib2Once w remote dest) st with
  | (Except.ok true, st2) => (Except.ok true, st2)
  | (Except.ok false, st2) => downloadRest w numberOfRetries recurse remote dest st2
  | (Except.error _, st2) => downloadRest w numberOfRetries recurse remote dest st2

/-- download_file (lines 341-504).  fuel bounds the self-recursion taken on
a socket error escaping the ftplib retry (line 492), which is unbounded in
the source; exhausted fuel yields the model-artifact error recursionLimit.

Control flow, as in the source: (a) if the destination exists, look up the
remote size — note this lookup (line 462) is outside any try block, so its
exceptions propagate — and return True on a size match; (b-e) otherwise run
the transport section, the recursive re-invocation being this function with
one unit of fuel less. -/
def download_file (w : World) (numberOfRetries : Option Nat) :
    Nat → String → String → DlState → Except Exc Bool × DlState
  | 0, _, _, st => (Except.error Exc.recursionLimit, st)
  | fuel + 1, remote, dest, st =>
    match fsLookup st.fs dest with
    | none =>
      downloadTransports w numberOfRetries
        (fun st3 => download_file w numberOfRetries fuel remote dest st3)
        remote dest st
    | some localSize =>
      match getFileSizeM w remote st with
      | (Except.error e, st1) => (Except.error e, st1)
      | (Except.ok remoteSize, st1) =>
        if remoteSize = (localSize : Int) then (Except.ok true, st1)
        else
          downloadTransports w numberOfRetries
            (fun st3 => download_file w numberOfRetries fuel remote dest st3)
            remote dest st1

/-! ## Helper lemmas for the retry decorator -/

/-- Exhaustion: if every attempt from counter through counter + remaining - 1
fails with a non-session-fatal error, the loop performs exactly remaining
further invocations and then raises RetryError n. -/
theorem retryAux_exhaust (f : Nat → Except Exc α) (sf n : Nat) :
    ∀ remaining counter,
      (∀ k, counter ≤ k → k < counter + remaining →
        ∃ e, f k = Except.error e ∧ isSocketErr e = false) →
      (retryAux f sf n counter remaining).1 = Except.error (Exc.retryError n) ∧
      (retryAux f sf n counter remaining).2.1 = remaining := by
  intro remaining
  induction remaining with
  | zero => intro counter _; exact ⟨rfl, rfl⟩
  | succ m ih =>
    intro counter h
    obtain ⟨e, he, hns⟩ := h counter (Nat.le_refl _) (by omega)
    have ih2 := ih (counter + 1) (fun k hk1 hk2 => h k (by omega) (by omega))
    simp only [retryAux, he, hns, Bool.false_eq_true, if_false]
    refine ⟨ih2.1, ?_⟩
    have := ih2.2
    omega

/-- Short-circuit: if attempts counter..j-1 fail with non-session-fatal
errors and attempt j fails with a socket error, the loop stops after
invocation j and propagates the socket error. -/
theorem retryAux_socket (f : Nat → Except Exc α) (sf n : Nat) (j c : Nat)
    (hj : f j = Except.error (Exc.socketError c)) :
    ∀ remaining counter, counter ≤ j → j < counter + remaining →
      (∀ k, counter ≤ k → k < j →
        ∃ e, f k = Except.error e ∧ isSocketErr e = false) →
      (retryAux f sf n counter remaining).1
        = Except.error (Exc.socketError c) ∧
      (retryAux f sf n counter remaining).2.1 = j - counter + 1 := by
  intro remaining
  induction remaining with
  | zero => intro counter h1 h2; omega
  | succ m ih =>
    intro counter h1 h2 h
    rcases Nat.eq_or_lt_of_le h1 with rfl | hlt
    · simp only [retryAux, hj, isSocketErr, if_true]
      exact ⟨by trivial, by omega⟩
    · obtain ⟨e, he, hns⟩ := h counter (Nat.le_refl _) hlt
      have ih2 := ih (counter + 1) (by omega) (by omega)
        (fun k hk1 hk2 => h k (by omega) hk2)
      simp only [retryAux, he, hns, Bool.false_eq_true, if_false]
      refine ⟨ih2.1, ?_⟩
      have := ih2.2
      omega

/-- Claim C10: retry with number_of_retries None or 0 returns the wrapped
operation unchanged — one invocation, the result (value or exception) is
passed through as-is without any RetryError wrapping, and no backoff sleep
occurs. -/
theorem retry_zero_is_identity (sf : Nat) (f : Nat → Except Exc α) :
    retryRun none sf f = (f 1, 1, []) ∧
    retryRun (some 0) sf f = (f 1, 1, []) :=
  ⟨rfl, rfl⟩

/-- Claim C1 counterexample: the claim says exhaustion fails with
RetryExhausted "wrapping the last underlying error", but the source raises
RetryError("Retry: Failed %i times." % number_of_retries), which carries only
the attempt count.  Two permanently failing operations whose last underlying
errors differ (EasyFtpError "alpha" vs EasyFtpError "beta") produce the
identical RetryError 1, so the raised error does not wrap the underlying
error. -/
theorem retry_error_not_wrapping_cex :
    (retryRun (some 1) 1
        (fun _ => (Except.error (Exc.easyFtpError "alpha") : Except Exc Unit))).1
      = (retryRun (some 1) 1
        (fun _ => (Except.error (Exc.easyFtpError "beta") : Except Exc Unit))).1 ∧
    (retryRun (some 1) 1
        (fun _ => (Except.error (Exc.easyFtpError "alpha") : Except Exc Unit))).1
      = Except.error (Exc.retryError 1) ∧
    Exc.easyFtpError "alpha" ≠ Exc.easyFtpError "beta" := by
  refine ⟨rfl, rfl, ?_⟩
  simp

/-- Claim C1 (amended): for maxAttempts = n ≥ 1, a permanently failing
operation whose failures are non-session-fatal is invoked exactly n times and
the combinator then fails with RetryError carrying only the attempt count
(not wrapping the last underlying error); and if attempts before j fail
non-session-fatally and attempt j fails with a socket-level error, that error
propagates immediately after invocation j with no further invocations. -/
theorem retry_budget_invariant (n sf : Nat) (f : Nat → Except Exc α)
    (hn : 1 ≤ n) :
    ((∀ k, 1 ≤ k → k ≤ n →
        ∃ e, f k = Except.error e ∧ isSocketErr e = false) →
      (retryRun (some n) sf f).1 = Except.error (Exc.retryError n) ∧
      (retryRun (some n) sf f).2.1 = n) ∧
    (∀ j c, 1 ≤ j → j ≤ n →
      f j = Except.error (Exc.socketError c) →
      (∀ k, 1 ≤ k → k < j →
        ∃ e, f k = Except.error e ∧ isSocketErr e = false) →
      (retryRun (some n) sf f).1 = Except.error (Exc.socketError c) ∧
      (retryRun (some n) sf f).2.1 = j) := by
  obtain ⟨m, rfl⟩ : ∃ m, n = m + 1 := ⟨n - 1, by omega⟩
  constructor
  · intro h
    have h1 := retryAux_exhaust f sf (m + 1) (m + 1) 1
      (fun k hk1 hk2 => h k hk1 (by omega))
    exact ⟨h1.1, h1.2⟩
  · intro j c hj1 hj2 hjf h
    have h1 := retryAux_socket f sf (m + 1) j c hjf (m + 1) 1 hj1 (by omega) h
    refine ⟨h1.1, ?_⟩
    have h2 : (retryRun (some (m + 1)) sf f).2.1 = j - 1 + 1 := h1.2
    omega

/-- Claim C1 witness: with maxAttempts = 2 and an operation failing every
attempt with ValueError, the operation is invoked exactly twice and the run
fails with RetryError 2. -/
theorem retry_budget_invariant_witness :
    (retryRun (some 2) 1
        (fun _ => (Except.error Exc.valueError : Except Exc Unit))).1
      = Except.error (Exc.retryError 2) ∧
    (retryRun (some 2) 1
        (fun _ => (Except.error Exc.valueError : Except Exc Unit))).2.1 = 2 :=
  (retry_budget_invariant 2 1 _ (by omega)).1
    (fun _ _ _ => ⟨Exc.valueError, rfl, rfl⟩)

/-- Claim C5 counterexample: the claim says a nested deadline-wrapped call
restores or cancels its deadline so that the outer deadline remains in force.
Concretely, run an inner timeout(5)-wrapped no-op while the outer wrapper's
deadline is pending (alarm = 10, outer handler 7 installed): afterwards the
process alarm is 0 — the outer deadline is no longer in force — and the
installed handler is the inner one (9), not the outer one (7). -/
theorem nested_timeout_clobbers_cex :
    ((timeoutWrap 5 9 (fun st => ((Except.ok 0 : Except Exc Nat), st))
        { alarm := 10, handler := 7 }).2.alarm = 0 ∧ (10 : Nat) ≠ 0) ∧
    ((timeoutWrap 5 9 (fun st => ((Except.ok 0 : Except Exc Nat), st))
        { alarm := 10, handler := 7 }).2.handler = 9 ∧ (9 : Nat) ≠ 7) := by
  refine ⟨⟨rfl, by omega⟩, rfl, by omega⟩

/-- Claim C5 (amended): the inner wrapper does cancel its deadline on every
exit path, but it does so by zeroing the single process-wide alarm
(signal.alarm(0) in the finally block), so after any nonzero-deadline
wrapped operation returns, no alarm is pending at all: an outer operation's
deadline does not remain in force, and nested deadlines clobber each other. -/
theorem timeout_wrapper_zeroes_alarm_on_every_exit (s hid : Nat)
    (f : SigState → Except Exc α × SigState) (st : SigState) :
    (timeoutWrap (s + 1) hid f st).2.alarm = 0 := by
  simp [timeoutWrap]

/-! ## Cooldown helper lemmas -/

/-- cooldownSleepTime is never negative. -/
theorem cooldownSleepTime_nonneg (st : CdState) (now : Int) :
    0 ≤ cooldownSleepTime st now := by
  unfold cooldownSleepTime
  split
  · split
    · split
      · omega
      · omega
    · omega
  · omega

/-- An action started at time now on a state whose cooldown interval is
c > 0 and whose last-action timestamp is t > 0 begins no earlier than
t + c. -/
theorem cooldown_begin_bound (c t now : Int) (st : CdState)
    (hc : st.cooldownSeconds = some c) (hcpos : 0 < c)
    (ht : st.cooldownTimestamp = some t) (htpos : 0 < t)
    (_hnow : t ≤ now) :
    t + c ≤ now + cooldownSleepTime st now := by
  have h1 : optTruthy (some c) = true := by
    simp [optTruthy]; omega
  have h2 : optTruthy (some t) = true := by
    simp [optTruthy]; omega
  simp only [cooldownSleepTime, cooldownSecondsSince, hc, ht, h1, h2,
    if_true, Option.getD_some]
  split <;> omega

/-- Claim C4 counterexample: the claim quantifies over every two
consecutive network actions of the instance, but the source issues network
actions that bypass the cooldown protocol.  Concretely, with interval 3: a
protocol action invoked at time 10 (previous stamp at 5) ends at time 12
and re-stamps 12; when list_contents is invoked right afterwards, at time
12, its pwd round-trip (line 635) — a network action — begins immediately
at time 12, before _cooldown has run (line 638), and 12 < 12 + 3: the
second of two consecutive network actions begins less than the cooldown
interval after the end of the first.  (The cwd calls at lines 196, 651 and
658 and the retrlines issued right after setup's login are likewise
unpaced.) -/
theorem cooldown_bypassed_by_pwd_cex :
    (runCooldownAction
        { cooldownSeconds := some 3, cooldownTimestamp := some 5 } 10 2).2.1
      = 12 ∧
    (runCooldownAction
        { cooldownSeconds := some 3, cooldownTimestamp := some 5 } 10 2).2.2.cooldownTimestamp
      = some 12 ∧
    (listContentsOpening
        (runCooldownAction
          { cooldownSeconds := some 3, cooldownTimestamp := some 5 } 10 2).2.2
        12 1).1
      = 12 ∧
    (12 : Int) < 12 + 3 := by
  refine ⟨by decide, by decide, rfl, by decide⟩

/-- Claim C4 (amended): with a cooldown interval c > 0, for every two
consecutive network actions that follow the source's cooldown protocol
(_cooldown before the work, _cooldown_set_timestamp at its end in a finally
step — the login and transfer actions), the second action — invoked at any
time at or after the end of the first — begins at least c time units after
the end of the first action, and each action re-stamps the cooldown
timestamp with its own end time.  Network actions issued outside the
protocol (the pwd before _cooldown in list_contents, the unpaced cwd
calls) are not so spaced. -/
theorem cooldown_min_interval (c : Int) (st : CdState)
    (now1 d1 now2 d2 : Int)
    (hc : st.cooldownSeconds = some c) (hcpos : 0 < c)
    (hnow1 : 0 < now1) (hd1 : 0 ≤ d1)
    (hnow2 : (runCooldownAction st now1 d1).2.1 ≤ now2) (_hd2 : 0 ≤ d2) :
    (runCooldownAction st now1 d1).2.2.cooldownTimestamp
      = some (runCooldownAction st now1 d1).2.1 ∧
    (runCooldownAction st now1 d1).2.1 + c
      ≤ (runCooldownAction (runCooldownAction st now1 d1).2.2 now2 d2).1 := by
  have hsleep1 := cooldownSleepTime_nonneg st now1
  have hctruthy : optTruthy st.cooldownSeconds = true := by
    simp [optTruthy, hc]; omega
  have hstamp : (runCooldownAction st now1 d1).2.2.cooldownTimestamp
      = some (runCooldownAction st now1 d1).2.1 := by
    simp only [runCooldownAction, cooldownSetTimestamp, hctruthy, if_true]
  refine ⟨hstamp, ?_⟩
  have hseconds : (runCooldownAction st now1 d1).2.2.cooldownSeconds = some c := by
    simp only [runCooldownAction, cooldownSetTimestamp, hctruthy, if_true]
    exact hc
  have hendpos : 0 < (runCooldownAction st now1 d1).2.1 := by
    simp only [runCooldownAction]
    omega
  have := cooldown_begin_bound c ((runCooldownAction st now1 d1).2.1) now2
    ((runCooldownAction st now1 d1).2.2) hseconds hcpos hstamp hendpos hnow2
  simpa [runCooldownAction] using this

/-- Claim C4 witness: interval 3, first action invoked at time 10 with the
last stamp at 5 and work lasting 2 ends at 12 and re-stamps 12; a second
action invoked at time 13 begins at 15 = 12 + 3. -/
theorem cooldown_min_interval_witness :
    (runCooldownAction
        { cooldownSeconds := some 3, cooldownTimestamp := some 5 } 10 2).2.2.cooldownTimestamp
      = some (runCooldownAction
        { cooldownSeconds := some 3, cooldownTimestamp := some 5 } 10 2).2.1 ∧
    (runCooldownAction
        { cooldownSeconds := some 3, cooldownTimestamp := some 5 } 10 2).2.1 + 3
      ≤ (runCooldownAction
          (runCooldownAction
            { cooldownSeconds := some 3, cooldownTimestamp := some 5 } 10 2).2.2 13 0).1 :=
  cooldown_min_interval 3 _ 10 2 13 0 rfl (by omega) (by omega) (by omega)
    (by decide) (by omega)

/-! ## Lemmas about Python whitespace splitting -/

/-- Unfolding lemma: an all-whitespace (or empty) input splits to nothing. -/
theorem pySplitAux_of_dropWS_nil (m : Nat) (cs : List Char)
    (h : dropWS cs = []) : pySplitAux m cs = [] := by
  cases m with
  | zero => simp only [pySplitAux, h]
  | succ a => simp only [pySplitAux, h]

/-- Unfolding lemma for a positive split budget and nonempty stripped
input. -/
theorem pySplitAux_succ_cons (m : Nat) (cs : List Char) (c : Char)
    (cs' : List Char) (h : dropWS cs = c :: cs') :
    pySplitAux (m + 1) cs
      = (takeWord (c :: cs')).1 :: pySplitAux m (takeWord (c :: cs')).2 := by
  simp only [pySplitAux, h]

/-- The first maxsplit elements of a whitespace split do not depend on the
split budget: for an index below both budgets, the element is the same. -/
theorem pySplitAux_get?_eq_of_lt :
    ∀ (i m m' : Nat) (cs : List Char), i < m → i < m' →
      (pySplitAux m cs).get? i = (pySplitAux m' cs).get? i := by
  intro i
  induction i with
  | zero =>
    intro m m' cs hm hm'
    obtain ⟨a, rfl⟩ : ∃ a, m = a + 1 := ⟨m - 1, by omega⟩
    obtain ⟨b, rfl⟩ : ∃ b, m' = b + 1 := ⟨m' - 1, by omega⟩
    cases h : dropWS cs with
    | nil => rw [pySplitAux_of_dropWS_nil _ _ h, pySplitAux_of_dropWS_nil _ _ h]
    | cons c cs' =>
      rw [pySplitAux_succ_cons a _ _ _ h, pySplitAux_succ_cons b _ _ _ h]
      rfl
  | succ i ih =>
    intro m m' cs hm hm'
    obtain ⟨a, rfl⟩ : ∃ a, m = a + 1 := ⟨m - 1, by omega⟩
    obtain ⟨b, rfl⟩ : ∃ b, m' = b + 1 := ⟨m' - 1, by omega⟩
    cases h : dropWS cs with
    | nil => rw [pySplitAux_of_dropWS_nil _ _ h, pySplitAux_of_dropWS_nil _ _ h]
    | cons c cs' =>
      rw [pySplitAux_succ_cons a _ _ _ h, pySplitAux_succ_cons b _ _ _ h]
      simp only [List.get?_cons_succ]
      exact ih a b _ (by omega) (by omega)

/-- The rest after taking a word is no longer than the input. -/
theorem takeWord_snd_length_le :
    ∀ cs : List Char, (takeWord cs).2.length ≤ cs.length := by
  intro cs
  induction cs with
  | nil => simp [takeWord]
  | cons c cs ih =>
    simp only [takeWord]
    split
    · simp
    · simpa using Nat.le_succ_of_le ih

/-- Dropping leading whitespace does not lengthen the list. -/
theorem dropWS_length_le : ∀ cs : List Char, (dropWS cs).length ≤ cs.length := by
  intro cs
  induction cs with
  | nil => simp [dropWS]
  | cons c cs ih =>
    simp only [dropWS]
    split
    · exact Nat.le_succ_of_le ih
    · simp

/-- The head of dropWS output is never whitespace. -/
theorem dropWS_head_not_ws :
    ∀ (cs : List Char) (c : Char) (cs' : List Char),
      dropWS cs = c :: cs' → isWS c = false := by
  intro cs
  induction cs with
  | nil => intro c cs' h; simp [dropWS] at h
  | cons a as ih =>
    intro c cs' h
    simp only [dropWS] at h
    by_cases ha : isWS a = true
    · rw [if_pos ha] at h
      exact ih c cs' h
    · rw [if_neg ha] at h
      cases h
      simpa using ha

/-- A whitespace split has no more elements than the input has characters. -/
theorem pySplitAux_length_le :
    ∀ (m : Nat) (cs : List Char), (pySplitAux m cs).length ≤ cs.length := by
  intro m
  induction m with
  | zero =>
    intro cs
    cases h : dropWS cs with
    | nil => rw [pySplitAux_of_dropWS_nil _ _ h]; simp
    | cons c cs' =>
      have hlen := dropWS_length_le cs
      rw [h] at hlen
      simp only [pySplitAux, h, List.length_singleton]
      simpa using Nat.le_trans (by simp) hlen
  | succ a ih =>
    intro cs
    cases h : dropWS cs with
    | nil => rw [pySplitAux_of_dropWS_nil _ _ h]; simp
    | cons c cs' =>
      have hws := dropWS_head_not_ws cs c cs' h
      have hlen := dropWS_length_le cs
      rw [h] at hlen
      have htw : (takeWord (c :: cs')).2.length ≤ cs'.length := by
        simp only [takeWord, hws, Bool.false_eq_true, if_false]
        exact takeWord_snd_length_le cs'
      have hih := ih (takeWord (c :: cs')).2
      rw [pySplitAux_succ_cons a _ _ _ h]
      simp only [List.length_cons]
      simp only [List.length_cons] at hlen
      omega

/-- Every element of a whitespace split is a nonempty character list. -/
theorem pySplitAux_mem_ne_nil :
    ∀ (m : Nat) (cs : List Char) (l : List Char),
      l ∈ pySplitAux m cs → l ≠ [] := by
  intro m
  induction m with
  | zero =>
    intro cs l hl
    revert hl
    cases h : dropWS cs with
    | nil => rw [pySplitAux_of_dropWS_nil _ _ h]; simp
    | cons c cs' =>
      simp only [pySplitAux, h, List.mem_singleton]
      rintro rfl
      simp
  | succ a ih =>
    intro cs l hl
    revert hl
    cases h : dropWS cs with
    | nil => rw [pySplitAux_of_dropWS_nil _ _ h]; simp
    | cons c cs' =>
      have hws := dropWS_head_not_ws cs c cs' h
      rw [pySplitAux_succ_cons a _ _ _ h]
      simp only [List.mem_cons]
      rintro (rfl | hmem)
      · simp only [takeWord, hws, Bool.false_eq_true, if_false]
        simp
      · exact ih _ _ hmem

/-- Claim C6 counterexample: on the specification's own example listing line
(Scenario D), field 3 (0-indexed) is "marnet" and field 5 is "Sep", yet the
parsed entry has owner "ftpadm" (field 2) and size 7 (field 4, parsed as an
integer; field 5 is not even numeric).  The source reads parts[2], parts[3]
and parts[4], not fields 3, 4 and 5 as the claim states. -/
theorem ftp_entry_claimed_indices_cex :
    (pyFields "drwxr-x---+  2 ftpadm   marnet   7 Sep 24 13:27 Data00").get? 3
      = some "marnet" ∧
    (pyFields "drwxr-x---+  2 ftpadm   marnet   7 Sep 24 13:27 Data00").get? 5
      = some "Sep" ∧
    pyLong "Sep" = none ∧
    (∃ entry,
      ftpEntryInit "drwxr-x---+  2 ftpadm   marnet   7 Sep 24 13:27 Data00" "/"
        = Except.ok entry ∧
      entry.owner = "ftpadm" ∧ entry.group = "marnet" ∧ entry.size = 7) ∧
    ("ftpadm" : String) ≠ "marnet" := by
  refine ⟨by decide, by decide, by decide, ⟨_, rfl, rfl, rfl, rfl⟩, by decide⟩

/-- Claim C6 (amended): for every listing line with at least 9
whitespace-separated fields whose field 4 (0-indexed) parses as an integer,
FtpEntry construction succeeds and produces an entry whose type is the first
character of field 0, whose owner is field 2 and group is field 3, whose
size is field 4 parsed as an integer (construction fails with ValueError on
non-numeric content there), and whose name is the last element of the
at-most-10-splits whitespace split of the line (so names keep internal
spaces once the first ten fields are consumed). -/
theorem ftp_entry_parse_fields (line rd : String)
    (h9 : 9 ≤ (pyFields line).length)
    (f0 f2 f3 f4 : String) (sz : Int)
    (h0 : (pyFields line).get? 0 = some f0)
    (h2 : (pyFields line).get? 2 = some f2)
    (h3 : (pyFields line).get? 3 = some f3)
    (h4 : (pyFields line).get? 4 = some f4)
    (hsz : pyLong f4 = some sz) :
    ∃ entry, ftpEntryInit line rd = Except.ok entry ∧
      entry.owner = f2 ∧ entry.group = f3 ∧ entry.size = sz ∧
      f0.toList.head? = some entry.type ∧
      (pySplitN line 10).getLast? = some entry.name := by
  have hL : 9 ≤ line.toList.length := by
    have := pySplitAux_length_le line.toList.length line.toList
    simp only [pyFields, pySplitN, List.length_map] at h9
    omega
  have key : ∀ i : Nat, i < 9 →
      (pySplitN line 10).get? i = (pyFields line).get? i := by
    intro i hi
    simp only [pySplitN, pyFields, List.get?_map]
    rw [pySplitAux_get?_eq_of_lt i 10 line.toList.length line.toList
      (by omega) (by omega)]
  have k2 : (pySplitN line 10).get? 2 = some f2 := by rw [key 2 (by omega)]; exact h2
  have k3 : (pySplitN line 10).get? 3 = some f3 := by rw [key 3 (by omega)]; exact h3
  have k4 : (pySplitN line 10).get? 4 = some f4 := by rw [key 4 (by omega)]; exact h4
  have k0 : (pySplitN line 10).get? 0 = some f0 := by rw [key 0 (by omega)]; exact h0
  have khead : (pySplitN line 10).head? = some f0 := by
    rw [← List.get?_zero]; exact k0
  have hne : pySplitN line 10 ≠ [] := by
    intro hnil; rw [hnil] at k0; simp at k0
  obtain ⟨nm, hnm⟩ : ∃ nm, (pySplitN line 10).getLast? = some nm :=
    ⟨(pySplitN line 10).getLast hne, List.getLast?_eq_getLast _ hne⟩
  obtain ⟨c0, rest0, hf0⟩ : ∃ c0 rest0, f0.toList = c0 :: rest0 := by
    have hmem : f0.toList ∈ pySplitAux 10 line.toList := by
      have : f0 ∈ pySplitN line 10 := List.get?_mem k0
      simp only [pySplitN, List.mem_map] at this
      obtain ⟨l, hl, rfl⟩ := this
      simpa using hl
    have := pySplitAux_mem_ne_nil 10 line.toList f0.toList hmem
    cases hcase : f0.toList with
    | nil => exact absurd hcase this
    | cons c0 rest0 => exact ⟨c0, rest0, rfl⟩
  refine ⟨{ remote_dir := rd, owner := f2, group := f3, size := sz,
            name := nm, type := c0 }, ?_, rfl, rfl, rfl, ?_, ?_⟩
  · simp only [ftpEntryInit, k2, k3, k4, hsz, hnm, khead, hf0,
      List.head?_cons]
  · rw [hf0]
    rfl
  · exact hnm

/-- Claim C6 witness: a standard 9-field file line parses with owner field 2,
group field 3, size field 4, type from field 0 and name the final split
element. -/
theorem ftp_entry_parse_fields_witness :
    ∃ entry,
      ftpEntryInit "-rw-r-----   1 ftpadm   marnet   1734480 Mar  9 08:01 arko.dat" "/"
        = Except.ok entry ∧
      entry.owner = "ftpadm" ∧ entry.group = "marnet" ∧
      entry.size = 1734480 ∧
      ("-rw-r-----" : String).toList.head? = some entry.type ∧
      (pySplitN "-rw-r-----   1 ftpadm   marnet   1734480 Mar  9 08:01 arko.dat" 10).getLast?
        = some entry.name :=
  ftp_entry_parse_fields _ "/" (by decide) "-rw-r-----" "ftpadm" "marnet"
    "1734480" 1734480 (by decide) (by decide) (by decide) (by decide) (by decide)

/-! ## Lemmas about FtpEntry construction and get_entries -/

/-- A successfully constructed entry takes its type character from the head
of the first split field. -/
theorem ftpEntryInit_ok_type (line rd : String) (entry : FtpEntry)
    (h : ftpEntryInit line rd = Except.ok entry) :
    ∃ f0, (pySplitN line 10).head? = some f0 ∧
      f0.toList.head? = some entry.type := by
  simp only [ftpEntryInit] at h
  split at h
  · exact Except.noConfusion h
  split at h
  · exact Except.noConfusion h
  split at h
  · exact Except.noConfusion h
  split at h
  · exact Except.noConfusion h
  split at h
  · exact Except.noConfusion h
  split at h
  · exact Except.noConfusion h
  split at h
  · exact Except.noConfusion h
  cases h
  exact ⟨_, by assumption, by assumption⟩

/-- When a line starts with a non-whitespace character c, the entry built
from it carries exactly c as its type. -/
theorem ftpEntryInit_type_eq_head (line rd : String) (c : Char)
    (entry : FtpEntry) (hc : line.toList.head? = some c)
    (hws : isWS c = false) (h : ftpEntryInit line rd = Except.ok entry) :
    entry.type = c := by
  obtain ⟨f0, h0, hty⟩ := ftpEntryInit_ok_type line rd entry h
  obtain ⟨rest, hl⟩ : ∃ rest, line.toList = c :: rest := by
    cases hcase : line.toList with
    | nil => rw [hcase] at hc; exact Option.noConfusion hc
    | cons a as =>
      rw [hcase] at hc
      simp only [List.head?_cons, Option.some.injEq] at hc
      exact ⟨as, by rw [hc]⟩
  have hdrop : dropWS line.toList = c :: rest := by
    rw [hl]
    simp only [dropWS, hws, Bool.false_eq_true, if_false]
  have h10 : pySplitAux 10 line.toList
      = (takeWord (c :: rest)).1 :: pySplitAux 9 (takeWord (c :: rest)).2 :=
    pySplitAux_succ_cons 9 _ _ _ hdrop
  have hword : (takeWord (c :: rest)).1 = c :: (takeWord rest).1 := by
    simp only [takeWord, hws, Bool.false_eq_true, if_false]
  have hhead : (pySplitN line 10).head?
      = some (String.mk (c :: (takeWord rest).1)) := by
    simp only [pySplitN, h10, hword, List.map_cons, List.head?_cons]
  rw [hhead] at h0
  cases h0
  have h5 : (some c : Option Char) = some entry.type := hty
  exact (Option.some.inj h5).symm

/-- Claim C9 counterexample: a listing that contains a malformed line
beginning with a File marker (the line "-bad", which has fewer than three
whitespace-separated fields) makes the whole get_entries loop raise
IndexError — even though the first line of the listing is perfectly
well-formed — instead of skipping the malformed line. -/
theorem get_entries_malformed_line_cex :
    getEntriesFromLines "/"
        ["-rw-r-----   1 ftpadm   marnet   0 Mar  9 08:13 .notar", "-bad"]
      = Except.error Exc.indexError := rfl

/-- Claim C9 (amended): get_entries filters out lines whose first character
is not one of the type markers -, d, l, so every entry returned by a
successful run is typed File, Directory or Link; but a line that does begin
with one of those markers and is malformed (or an empty line) raises and
makes the whole listing operation fail rather than being skipped. -/
theorem get_entries_skip_and_type (path : String) :
    (∀ lines entries, getEntriesFromLines path lines = Except.ok entries →
      ∀ e ∈ entries, e.type = '-' ∨ e.type = 'd' ∨ e.type = 'l') ∧
    (∀ line rest c, line.toList.head? = some c →
      ¬(c = '-' ∨ c = 'd' ∨ c = 'l') →
      getEntriesFromLines path (line :: rest)
        = getEntriesFromLines path rest) := by
  constructor
  · intro lines
    induction lines with
    | nil =>
      intro entries h e he
      simp only [getEntriesFromLines] at h
      cases h
      simp at he
    | cons line rest ih =>
      intro entries h e he
      simp only [getEntriesFromLines] at h
      cases hhd : line.toList.head? with
      | none => simp only [hhd] at h; exact Except.noConfusion h
      | some c =>
        simp only [hhd] at h
        by_cases hc : c = '-' ∨ c = 'd' ∨ c = 'l'
        · rw [if_pos hc] at h
          cases hinit : ftpEntryInit line path with
          | error e2 => simp only [hinit] at h; exact Except.noConfusion h
          | ok entry =>
            simp only [hinit] at h
            cases hrec : getEntriesFromLines path rest with
            | error e2 => simp only [hrec] at h; exact Except.noConfusion h
            | ok entries2 =>
              simp only [hrec] at h
              cases h
              cases he with
              | head =>
                have htype := ftpEntryInit_type_eq_head line path c e hhd
                  (by rcases hc with rfl | rfl | rfl <;> rfl) hinit
                rw [htype]
                exact hc
              | tail b he2 => exact ih entries2 hrec e he2
        · rw [if_neg hc] at h
          exact ih entries h e he
  · intro line rest c hhd hnc
    simp only [getEntriesFromLines, hhd, if_neg hnc]

/-- Claim C9 witness: a listing with one directory line and one line
starting with t (skipped) yields exactly one entry, typed Directory. -/
theorem get_entries_skip_and_type_witness :
    ∀ e ∈ [({ remote_dir := "/", owner := "ftpadm", group := "marnet",
              size := 7, name := "Data00", type := 'd' } : FtpEntry)],
      e.type = '-' ∨ e.type = 'd' ∨ e.type = 'l' :=
  (get_entries_skip_and_type "/").1
    ["drwxr-x---+  2 ftpadm   marnet   7 Sep 24 13:27 Data00", "total 3"]
    [{ remote_dir := "/", owner := "ftpadm", group := "marnet",
       size := 7, name := "Data00", type := 'd' }]
    rfl

/-! ## Filesystem lemmas -/

theorem fsLookup_fsRemove_ne (fs : Fs) (k k2 : String) (h : k ≠ k2) :
    fsLookup (fsRemove fs k) k2 = fsLookup fs k2 := by
  induction fs with
  | nil => rfl
  | cons p rest ih =>
    obtain ⟨a, v⟩ := p
    by_cases ha : a = k
    · simp only [fsRemove, fsLookup, if_pos ha, ih]
      rw [if_neg (fun hk : a = k2 => h (ha.symm.trans hk))]
    · simp only [fsRemove, fsLookup, if_neg ha, ih]

theorem fsLookup_fsSet_self (fs : Fs) (k : String) (v : Nat) :
    fsLookup (fsSet fs k v) k = some v := by
  simp [fsSet, fsLookup]

theorem fsLookup_fsSet_ne (fs : Fs) (k k2 : String) (v : Nat) (h : k ≠ k2) :
    fsLookup (fsSet fs k v) k2 = fsLookup fs k2 := by
  simp only [fsSet, fsLookup]
  rw [if_neg h, fsLookup_fsRemove_ne fs k k2 h]

theorem fsLookup_fsMove_dst (fs : Fs) (src dst : String) (b : Nat)
    (hsrc : fsLookup fs src = some b) :
    fsLookup (fsMove fs src dst) dst = some b := by
  simp only [fsMove, hsrc]
  exact fsLookup_fsSet_self _ _ _

/-- The temp file name is never the destination name. -/
theorem tmpName_ne (dest : String) : tmpName dest ≠ dest := by
  intro h
  have hlen := congrArg String.length h
  rw [tmpName, String.length_append] at hlen
  have h4 : (".tmp" : String).length = 4 := rfl
  omega

/-! ## State-preservation lemmas for the download model -/

/-- The shared verification block leaves the destination untouched unless it
returns True, in which case the destination holds a size equal to the remote
size from the verification lookup. -/
theorem verify_dest (w : World) (remote dest : String) (st : DlState) :
    ((verifyAndPromote w remote dest st).1 = Except.ok true →
      ∃ s : Nat,
        fsLookup (verifyAndPromote w remote dest st).2.fs dest = some s ∧
        w.fileSize remote = Except.ok (s : Int)) ∧
    ((verifyAndPromote w remote dest st).1 ≠ Except.ok true →
      fsLookup (verifyAndPromote w remote dest st).2.fs dest
        = fsLookup st.fs dest) := by
  cases hl : fsLookup st.fs (tmpName dest) with
  | none =>
    simp only [verifyAndPromote, hl]
    exact ⟨fun h => absurd h (by simp), fun _ => trivial⟩
  | some localSize =>
    cases hfs : w.fileSize remote with
    | error e =>
      simp only [verifyAndPromote, hl, getFileSizeM, hfs]
      exact ⟨fun h => absurd h (by simp), fun _ => trivial⟩
    | ok remoteSize =>
      simp only [verifyAndPromote, hl, getFileSizeM, hfs]
      by_cases hsz : (localSize : Int) = remoteSize
      · rw [if_pos hsz]
        refine ⟨fun _ => ⟨localSize, ?_, ?_⟩, fun h => absurd rfl h⟩
        · exact fsLookup_fsMove_dst _ _ _ _ hl
        · rw [hsz]
      · rw [if_neg hsz]
        exact ⟨fun h => absurd h (by simp), fun _ => rfl⟩

/-- A urllib2 transfer touches only the temp file, never the destination. -/
theorem urlTransfer_fs_dest (w : World) (dest : String) (st : DlState) :
    fsLookup (urlTransferM w (tmpName dest) st).2.fs dest
      = fsLookup st.fs dest := by
  unfold urlTransferM
  cases hatt : w.urlAttempt st.urlCount with
  | success b =>
    simp only
    exact fsLookup_fsSet_ne _ _ _ _ (tmpName_ne dest)
  | failure e leftover =>
    cases leftover with
    | none => rfl
    | some b =>
      simp only
      exact fsLookup_fsSet_ne _ _ _ _ (tmpName_ne dest)

/-- An ftplib transfer touches only the temp file, never the destination. -/
theorem ftpTransfer_fs_dest (w : World) (dest : String) (st : DlState) :
    fsLookup (ftpTransferM w (tmpName dest) st).2.fs dest
      = fsLookup st.fs dest := by
  unfold ftpTransferM
  cases hatt : w.ftpAttempt st.ftpCount with
  | success b =>
    simp only
    exact fsLookup_fsSet_ne _ _ _ _ (tmpName_ne dest)
  | failure e leftover =>
    cases leftover with
    | none => rfl
    | some b =>
      simp only
      exact fsLookup_fsSet_ne _ _ _ _ (tmpName_ne dest)

/-- One urllib2 attempt: destination untouched unless the attempt returns
True, in which case the destination is size-verified. -/
theorem urlOnce_dest (w : World) (remote dest : String) (st : DlState) :
    ((downloadUsingUrllib2Once w remote dest st).1 = Except.ok true →
      ∃ s : Nat,
        fsLookup (downloadUsingUrllib2Once w remote dest st).2.fs dest = some s ∧
        w.fileSize remote = Except.ok (s : Int)) ∧
    ((downloadUsingUrllib2Once w remote dest st).1 ≠ Except.ok true →
      fsLookup (downloadUsingUrllib2Once w remote dest st).2.fs dest
        = fsLookup st.fs dest) := by
  unfold downloadUsingUrllib2Once
  cases hres : urlTransferM w (tmpName dest) st with
  | mk r st1 =>
    have hdest : fsLookup st1.fs dest = fsLookup st.fs dest := by
      have := urlTransfer_fs_dest w dest st
      rw [hres] at this
      exact this
    cases r with
    | error e =>
      simp only
      exact ⟨fun h => absurd h (by simp), fun _ => hdest⟩
    | ok u =>
      simp only
      have hv := verify_dest w remote dest st1
      exact ⟨hv.1, fun h => (hv.2 h).trans hdest⟩

/-- One ftplib attempt: destination untouched unless the attempt returns
True, in which case the destination is size-verified. -/
theorem ftpOnce_dest (w : World) (remote dest : String) (st : DlState) :
    ((downloadUsingFtplibOnce w remote dest st).1 = Except.ok true →
      ∃ s : Nat,
        fsLookup (downloadUsingFtplibOnce w remote dest st).2.fs dest = some s ∧
        w.fileSize remote = Except.ok (s : Int)) ∧
    ((downloadUsingFtplibOnce w remote dest st).1 ≠ Except.ok true →
      fsLookup (downloadUsingFtplibOnce w remote dest st).2.fs dest
        = fsLookup st.fs dest) := by
  unfold downloadUsingFtplibOnce
  cases hres : ftpTransferM w (tmpName dest)
      { st with fs := fsRemove st.fs (tmpName dest) } with
  | mk r st1 =>
    have hdest : fsLookup st1.fs dest = fsLookup st.fs dest := by
      have h1 := ftpTransfer_fs_dest w dest
        { st with fs := fsRemove st.fs (tmpName dest) }
      rw [hres] at h1
      simp only at h1
      rw [h1]
      exact fsLookup_fsRemove_ne _ _ _ (tmpName_ne dest)
    cases r with
    | error e =>
      simp only
      exact ⟨fun h => absurd h (by simp), fun _ => hdest⟩
    | ok u =>
      simp only
      have hv := verify_dest w remote dest st1
      exact ⟨hv.1, fun h => (hv.2 h).trans hdest⟩

/-! ## Lemmas about the stateful retry executor -/

/-- A value returned by the retry loop comes from some run of the body. -/
theorem retryExecAux_ok (body : DlState → Except Exc α × DlState) (n : Nat) :
    ∀ (rem : Nat) (st : DlState) (a : α) (st' : DlState),
      retryExecAux body n rem st = (Except.ok a, st') →
      ∃ st0, body st0 = (Except.ok a, st') := by
  intro rem
  induction rem with
  | zero =>
    intro st a st' h
    have := congrArg Prod.fst h
    simp [retryExecAux] at this
  | succ m ih =>
    intro st a st' h
    cases hb : body st with
    | mk r st1 =>
      cases r with
      | ok a2 =>
        simp only [retryExecAux, hb] at h
        exact ⟨st, hb.trans h⟩
      | error e =>
        simp only [retryExecAux, hb] at h
        by_cases hs : isSocketErr e = true
        · rw [if_pos hs] at h
          have := congrArg Prod.fst h
          simp at this
        · rw [if_neg hs] at h
          exact ih st1 a st' h

/-- Likewise for the retry wrapper. -/
theorem retryExec_ok (n? : Option Nat)
    (body : DlState → Except Exc α × DlState)
    (st : DlState) (a : α) (st' : DlState)
    (h : retryExec n? body st = (Except.ok a, st')) :
    ∃ st0, body st0 = (Except.ok a, st') := by
  cases n? with
  | none => exact ⟨st, h⟩
  | some n =>
    cases n with
    | zero => exact ⟨st, h⟩
    | succ m => exact retryExecAux_ok body (m + 1) (m + 1) st a st' h

/-- The destination invariant threaded through a download: the destination
entry of the filesystem either did not change, or holds a size verified
against the remote size lookup. -/
def destUV (w : World) (remote dest : String) (st st' : DlState) : Prop :=
  fsLookup st'.fs dest = fsLookup st.fs dest ∨
    ∃ s : Nat, fsLookup st'.fs dest = some s ∧
      w.fileSize remote = Except.ok (s : Int)

theorem destUV_refl (w : World) (remote dest : String) (st : DlState) :
    destUV w remote dest st st := Or.inl rfl

theorem destUV_trans (w : World) (remote dest : String)
    (st st1 st2 : DlState) (h12 : destUV w remote dest st st1)
    (h23 : destUV w remote dest st1 st2) : destUV w remote dest st st2 := by
  cases h23 with
  | inl h =>
    cases h12 with
    | inl h2 => exact Or.inl (h.trans h2)
    | inr h2 =>
      obtain ⟨s, hs, hw⟩ := h2
      exact Or.inr ⟨s, h.trans hs, hw⟩
  | inr h => exact Or.inr h

/-- One urllib2 attempt preserves the destination invariant. -/
theorem urlOnce_destUV (w : World) (remote dest : String) (st : DlState) :
    destUV w remote dest st (downloadUsingUrllib2Once w remote dest st).2 := by
  by_cases h : (downloadUsingUrllib2Once w remote dest st).1 = Except.ok true
  · obtain ⟨s, hs, hw⟩ := (urlOnce_dest w remote dest st).1 h
    exact Or.inr ⟨s, hs, hw⟩
  · exact Or.inl ((urlOnce_dest w remote dest st).2 h)

/-- One ftplib attempt preserves the destination invariant. -/
theorem ftpOnce_destUV (w : World) (remote dest : String) (st : DlState) :
    destUV w remote dest st (downloadUsingFtplibOnce w remote dest st).2 := by
  by_cases h : (downloadUsingFtplibOnce w remote dest st).1 = Except.ok true
  · obtain ⟨s, hs, hw⟩ := (ftpOnce_dest w remote dest st).1 h
    exact Or.inr ⟨s, hs, hw⟩
  · exact Or.inl ((ftpOnce_dest w remote dest st).2 h)

/-- The retry loop preserves the destination invariant when its body
does. -/
theorem retryExecAux_destUV (w : World) (remote dest : String)
    (body : DlState → Except Exc α × DlState) (n : Nat)
    (hbody : ∀ st, destUV w remote dest st (body st).2) :
    ∀ (rem : Nat) (st : DlState),
      destUV w remote dest st (retryExecAux body n rem st).2 := by
  intro rem
  induction rem with
  | zero => intro st; exact destUV_refl w remote dest st
  | succ m ih =>
    intro st
    cases hb : body st with
    | mk r st1 =>
      have hb2 : destUV w remote dest st st1 := by
        have := hbody st
        rw [hb] at this
        exact this
      cases r with
      | ok a2 => simp only [retryExecAux, hb]; exact hb2
      | error e =>
        simp only [retryExecAux, hb]
        by_cases hs : isSocketErr e = true
        · rw [if_pos hs]; exact hb2
        · rw [if_neg hs]
          exact destUV_trans w remote dest st st1 _ hb2 (ih st1)

theorem retryExec_destUV (w : World) (remote dest : String)
    (n? : Option Nat) (body : DlState → Except Exc α × DlState)
    (hbody : ∀ st, destUV w remote dest st (body st).2) (st : DlState) :
    destUV w remote dest st (retryExec n? body st).2 := by
  cases n? with
  | none => exact hbody st
  | some n =>
    cases n with
    | zero => exact hbody st
    | succ m => exact retryExecAux_destUV w remote dest body (m + 1) hbody (m + 1) st

/-- setup never touches the filesystem. -/
theorem runSetup_fs (w : World) (st : DlState) :
    (runSetup w st).2.fs = st.fs := by
  unfold runSetup
  cases w.setupResult <;> rfl

/-- downloadRest keeps the destination invariant, given that the recursive
re-invocation does. -/
theorem downloadRest_dest (w : World) (n? : Option Nat)
    (remote dest : String)
    (recurse : DlState → Except Exc Bool × DlState)
    (hrec : ∀ st, ((recurse st).1 = Except.ok true →
        ∃ s : Nat, fsLookup (recurse st).2.fs dest = some s ∧
          w.fileSize remote = Except.ok (s : Int)) ∧
      destUV w remote dest st (recurse st).2)
    (st : DlState) :
    ((downloadRest w n? recurse remote dest st).1 = Except.ok true →
      ∃ s : Nat,
        fsLookup (downloadRest w n? recurse remote dest st).2.fs dest = some s ∧
        w.fileSize remote = Except.ok (s : Int)) ∧
    destUV w remote dest st (downloadRest w n? recurse remote dest st).2 := by
  unfold downloadRest
  cases hens : (if st.hasFtp then ((Except.ok (), st) : Except Exc Unit × DlState)
      else runSetup w st) with
  | mk re st1 =>
    have hfs1 : st1.fs = st.fs := by
      by_cases hftp : st.hasFtp
      · rw [if_pos hftp] at hens
        cases hens
        rfl
      · rw [if_neg hftp] at hens
        have := runSetup_fs w st
        rw [hens] at this
        exact this
    have huv1 : destUV w remote dest st st1 := Or.inl (by rw [hfs1])
    cases re with
    | error e =>
      simp only
      exact ⟨fun h => absurd h (by simp), huv1⟩
    | ok u =>
      simp only
      cases hretry : retryExec n? (downloadUsingFtplibOnce w remote dest) st1 with
      | mk r3 st3 =>
        have huv3 : destUV w remote dest st1 st3 := by
          have := retryExec_destUV w remote dest n?
            (downloadUsingFtplibOnce w remote dest)
            (ftpOnce_destUV w remote dest) st1
          rw [hretry] at this
          exact this
        have huv03 : destUV w remote dest st st3 :=
          destUV_trans w remote dest st st1 st3 huv1 huv3
        cases r3 with
        | ok b =>
          cases b with
          | true =>
            simp only
            refine ⟨fun _ => ?_, ?_⟩
            · obtain ⟨st0, h0⟩ := retryExec_ok n? _ st1 true st3 hretry
              have := (ftpOnce_dest w remote dest st0).1
              rw [h0] at this
              exact this rfl
            · obtain ⟨st0, h0⟩ := retryExec_ok n? _ st1 true st3 hretry
              have := (ftpOnce_dest w remote dest st0).1
              rw [h0] at this
              exact Or.inr (this rfl)
          | false =>
            simp only
            exact ⟨fun h => absurd h (by simp), huv03⟩
        | error e =>
          simp only
          by_cases hs : isSocketErr e = true
          · rw [if_pos hs]
            refine ⟨(hrec st3).1, destUV_trans w remote dest st st3 _ huv03 (hrec st3).2⟩
          · rw [if_neg hs]
            exact ⟨fun h => absurd h (by simp), huv03⟩

/-- The transport section keeps the destination invariant, given that the
recursive re-invocation does. -/
theorem downloadTransports_dest (w : World) (n? : Option Nat)
    (remote dest : String)
    (recurse : DlState → Except Exc Bool × DlState)
    (hrec : ∀ st, ((recurse st).1 = Except.ok true →
        ∃ s : Nat, fsLookup (recurse st).2.fs dest = some s ∧
          w.fileSize remote = Except.ok (s : Int)) ∧
      destUV w remote dest st (recurse st).2)
    (st : DlState) :
    ((downloadTransports w n? recurse remote dest st).1 = Except.ok true →
      ∃ s : Nat,
        fsLookup (downloadTransports w n? recurse remote dest st).2.fs dest
          = some s ∧
        w.fileSize remote = Except.ok (s : Int)) ∧
    destUV w remote dest st (downloadTransports w n? recurse remote dest st).2 := by
  unfold downloadTransports
  cases hurl : retryExec n? (downloadUsingUrllib2Once w remote dest) st with
  | mk r2 st2 =>
    have huv2 : destUV w remote dest st st2 := by
      have := retryExec_destUV w remote dest n?
        (downloadUsingUrllib2Once w remote dest)
        (urlOnce_destUV w remote dest) st
      rw [hurl] at this
      exact this
    have hafter := downloadRest_dest w n? remote dest recurse hrec st2
    cases r2 with
    | ok b =>
      cases b with
      | true =>
        simp only
        refine ⟨fun _ => ?_, ?_⟩
        · obtain ⟨st0, h0⟩ := retryExec_ok n? _ st true st2 hurl
          have := (urlOnce_dest w remote dest st0).1
          rw [h0] at this
          exact this rfl
        · obtain ⟨st0, h0⟩ := retryExec_ok n? _ st true st2 hurl
          have := (urlOnce_dest w remote dest st0).1
          rw [h0] at this
          exact Or.inr (this rfl)
      | false =>
        simp only
        exact ⟨hafter.1, destUV_trans w remote dest st st2 _ huv2 hafter.2⟩
    | error e =>
      simp only
      exact ⟨hafter.1, destUV_trans w remote dest st st2 _ huv2 hafter.2⟩

/-- The destination invariant for download_file itself, by induction on the
recursion fuel: whenever a download returns True, the destination holds a
size equal to the remote size from a listing lookup; and in every case the
destination entry is either unchanged or size-verified. -/
theorem download_file_dest (w : World) (n? : Option Nat) :
    ∀ (fuel : Nat) (remote dest : String) (st : DlState),
      ((download_file w n? fuel remote dest st).1 = Except.ok true →
        ∃ s : Nat,
          fsLookup (download_file w n? fuel remote dest st).2.fs dest = some s ∧
          w.fileSize remote = Except.ok (s : Int)) ∧
      destUV w remote dest st (download_file w n? fuel remote dest st).2 := by
  intro fuel
  induction fuel with
  | zero =>
    intro remote dest st
    exact ⟨fun h => absurd h (by simp [download_file]), destUV_refl w remote dest st⟩
  | succ m ih =>
    intro remote dest st
    cases hpre : fsLookup st.fs dest with
    | none =>
      simp only [download_file, hpre]
      exact downloadTransports_dest w n? remote dest _ (fun st3 => ih remote dest st3) st
    | some localSize =>
      cases hfs : w.fileSize remote with
      | error e =>
        simp only [download_file, hpre, getFileSizeM, hfs]
        exact ⟨fun h => absurd h (by simp), Or.inl rfl⟩
      | ok remoteSize =>
        simp only [download_file, hpre, getFileSizeM, hfs]
        by_cases heq : remoteSize = (localSize : Int)
        · rw [if_pos heq]
          refine ⟨fun _ => ⟨localSize, hpre, by rw [heq]⟩,
            Or.inr ⟨localSize, hpre, by rw [hfs, heq]⟩⟩
        · rw [if_neg heq]
          have := downloadTransports_dest w n? remote dest
            (fun st3 => download_file w n? m remote dest st3)
            (fun st3 => ih remote dest st3)
            { st with events := st.events ++ [Ev.sizeLookup remote] }
          rw [hfs] at this
          refine ⟨this.1, ?_⟩
          have huv0 : destUV w remote dest st
              { st with events := st.events ++ [Ev.sizeLookup remote] } :=
            Or.inl rfl
          exact destUV_trans w remote dest st _ _ huv0 this.2

/-- Claim C3: whenever download_file returns True, the destination file
exists and its size equals the remote file's size obtained from a listing
lookup; and on every outcome the destination entry is either untouched or
size-verified — the temp file is promoted onto the destination by the move
only after the size verification succeeds, so the destination is never left
partially written. -/
theorem download_true_size_verified (w : World) (n? : Option Nat)
    (fuel : Nat) (remote dest : String) (st st' : DlState)
    (r : Except Exc Bool)
    (h : download_file w n? fuel remote dest st = (r, st')) :
    (r = Except.ok true →
      ∃ s : Nat, fsLookup st'.fs dest = some s ∧
        w.fileSize remote = Except.ok (s : Int)) ∧
    (fsLookup st'.fs dest = fsLookup st.fs dest ∨
      ∃ s : Nat, fsLookup st'.fs dest = some s ∧
        w.fileSize remote = Except.ok (s : Int)) := by
  have hmain := download_file_dest w n? fuel remote dest st
  rw [h] at hmain
  refine ⟨fun hr => hmain.1 (by rw [hr]), hmain.2⟩

/-- Claim C3 witness: a concrete run (fresh destination, urllib2 transfer of
7 bytes, remote size 7) returns True with the destination present at the
verified size. -/
theorem download_true_size_verified_witness :
    ∃ s : Nat,
      fsLookup (download_file
        ⟨fun _ => Except.ok 7, fun _ => TransferOutcome.success 7,
         fun _ => TransferOutcome.success 7, Except.ok ()⟩
        (some 2) 3 "/r/a.txt" "a.txt" ⟨[], 0, 0, [], true⟩).2.fs "a.txt"
        = some s ∧
      (⟨fun _ => Except.ok 7, fun _ => TransferOutcome.success 7,
        fun _ => TransferOutcome.success 7, Except.ok ()⟩ : World).fileSize
          "/r/a.txt" = Except.ok (s : Int) :=
  (download_true_size_verified
    ⟨fun _ => Except.ok 7, fun _ => TransferOutcome.success 7,
     fun _ => TransferOutcome.success 7, Except.ok ()⟩
    (some 2) 3 "/r/a.txt" "a.txt" ⟨[], 0, 0, [], true⟩ _ _ rfl).1 rfl

/-- Claim C7: if the destination already exists with the size the remote
listing lookup reports, download_file returns True having performed only
that lookup — the state changes only by the sizeLookup event, so neither
transport is invoked and the transfer-attempt counters are untouched; and
consequently any call that follows a call that returned True also returns
True with only a lookup, performing zero network transfer calls. -/
theorem download_idempotent_no_transfer (w : World) (n? : Option Nat)
    (remote dest : String) :
    (∀ (st : DlState) (s : Nat) (fuel : Nat),
      fsLookup st.fs dest = some s →
      w.fileSize remote = Except.ok (s : Int) →
      download_file w n? (fuel + 1) remote dest st
        = (Except.ok true,
           { st with events := st.events ++ [Ev.sizeLookup remote] })) ∧
    (∀ (st st1 : DlState) (fuel fuel' : Nat),
      download_file w n? fuel remote dest st = (Except.ok true, st1) →
      download_file w n? (fuel' + 1) remote dest st1
        = (Except.ok true,
           { st1 with events := st1.events ++ [Ev.sizeLookup remote] })) := by
  have hshort : ∀ (st : DlState) (s : Nat) (fuel : Nat),
      fsLookup st.fs dest = some s →
      w.fileSize remote = Except.ok (s : Int) →
      download_file w n? (fuel + 1) remote dest st
        = (Except.ok true,
           { st with events := st.events ++ [Ev.sizeLookup remote] }) := by
    intro st s fuel h1 h2
    simp only [download_file, h1, getFileSizeM, h2]
    simp
  refine ⟨hshort, fun st st1 fuel fuel' h => ?_⟩
  have hmain := download_file_dest w n? fuel remote dest st
  rw [h] at hmain
  obtain ⟨s, hs, hw⟩ := hmain.1 rfl
  exact hshort st1 s fuel' hs hw

/-- Claim C7 witness: destination pre-exists with size 7 matching the
remote lookup; the call returns True immediately, recording only the
lookup event. -/
theorem download_idempotent_no_transfer_witness :
    download_file
        ⟨fun _ => Except.ok 7, fun _ => TransferOutcome.success 9,
         fun _ => TransferOutcome.success 9, Except.ok ()⟩
        (some 2) 3 "/r/a.txt" "a.txt"
        ⟨[("a.txt", 7)], 0, 0, [], true⟩
      = (Except.ok true,
         { (⟨[("a.txt", 7)], 0, 0, [], true⟩ : DlState) with
             events := ([] : List Ev) ++ [Ev.sizeLookup "/r/a.txt"] }) :=
  (download_idempotent_no_transfer
    ⟨fun _ => Except.ok 7, fun _ => TransferOutcome.success 9,
     fun _ => TransferOutcome.success 9, Except.ok ()⟩
    (some 2) "/r/a.txt" "a.txt").1
    ⟨[("a.txt", 7)], 0, 0, [], true⟩ 7 2 rfl rfl

/-! ## Lemmas for the no-raise analysis of download_file -/

theorem urlTransfer_hasFtp (w : World) (tmp : String) (st : DlState) :
    (urlTransferM w tmp st).2.hasFtp = st.hasFtp := by
  unfold urlTransferM
  cases w.urlAttempt st.urlCount with
  | success b => rfl
  | failure e lo => cases lo <;> rfl

theorem verify_hasFtp (w : World) (remote dest : String) (st : DlState) :
    (verifyAndPromote w remote dest st).2.hasFtp = st.hasFtp := by
  cases hl : fsLookup st.fs (tmpName dest) with
  | none => simp [verifyAndPromote, hl]
  | some ls =>
    cases hfs : w.fileSize remote with
    | error e => simp [verifyAndPromote, hl, getFileSizeM, hfs]
    | ok rs =>
      simp only [verifyAndPromote, hl, getFileSizeM, hfs]
      by_cases hsz : (ls : Int) = rs
      · rw [if_pos hsz]
      · rw [if_neg hsz]

theorem urlOnce_hasFtp (w : World) (remote dest : String) (st : DlState) :
    (downloadUsingUrllib2Once w remote dest st).2.hasFtp = st.hasFtp := by
  unfold downloadUsingUrllib2Once
  cases hres : urlTransferM w (tmpName dest) st with
  | mk r st1 =>
    have h1 : st1.hasFtp = st.hasFtp := by
      have := urlTransfer_hasFtp w (tmpName dest) st
      rw [hres] at this
      exact this
    cases r with
    | error e => exact h1
    | ok u => exact (verify_hasFtp w remote dest st1).trans h1

/-- The retry loop preserves any state predicate its body preserves. -/
theorem retryExecAux_pres (body : DlState → Except Exc α × DlState) (n : Nat)
    (P : DlState → Prop) (hbody : ∀ st, P st → P (body st).2) :
    ∀ (rem : Nat) (st : DlState), P st → P (retryExecAux body n rem st).2 := by
  intro rem
  induction rem with
  | zero => intro st h; exact h
  | succ m ih =>
    intro st h
    cases hb : body st with
    | mk r st1 =>
      have h1 : P st1 := by
        have := hbody st h
        rw [hb] at this
        exact this
      cases r with
      | ok a => simp only [retryExecAux, hb]; exact h1
      | error e =>
        simp only [retryExecAux, hb]
        by_cases hs : isSocketErr e = true
        · rw [if_pos hs]; exact h1
        · rw [if_neg hs]; exact ih st1 h1

theorem retryExec_pres (n? : Option Nat)
    (body : DlState → Except Exc α × DlState)
    (P : DlState → Prop) (hbody : ∀ st, P st → P (body st).2)
    (st : DlState) (h : P st) : P (retryExec n? body st).2 := by
  cases n? with
  | none => exact hbody st h
  | some n =>
    cases n with
    | zero => exact hbody st h
    | succ m => exact retryExecAux_pres body (m + 1) P hbody (m + 1) st h

/-- If the body only fails with non-session-fatal errors, so does the whole
retry loop (exhaustion raises RetryError, which is not a socket error). -/
theorem retryExecAux_err (body : DlState → Except Exc α × DlState) (n : Nat)
    (hbody : ∀ st e st'', body st = (Except.error e, st'') →
      isSocketErr e = false) :
    ∀ (rem : Nat) (st : DlState) (e : Exc) (st' : DlState),
      retryExecAux body n rem st = (Except.error e, st') →
      isSocketErr e = false := by
  intro rem
  induction rem with
  | zero =>
    intro st e st' h
    have := congrArg Prod.fst h
    simp only [retryExecAux, Except.error.injEq] at this
    rw [← this]
    rfl
  | succ m ih =>
    intro st e st' h
    cases hb : body st with
    | mk r st1 =>
      cases r with
      | ok a =>
        simp only [retryExecAux, hb] at h
        have := congrArg Prod.fst h
        simp at this
      | error e2 =>
        have hns : isSocketErr e2 = false := hbody st e2 st1 hb
        simp only [retryExecAux, hb, hns, Bool.false_eq_true, if_false] at h
        exact ih st1 e st' h

theorem retryExec_err (n? : Option Nat)
    (body : DlState → Except Exc α × DlState)
    (hbody : ∀ st e st'', body st = (Except.error e, st'') →
      isSocketErr e = false)
    (st : DlState) (e : Exc) (st' : DlState)
    (h : retryExec n? body st = (Except.error e, st')) :
    isSocketErr e = false := by
  cases n? with
  | none => exact hbody st e st' h
  | some n =>
    cases n with
    | zero => exact hbody st e st' h
    | succ m => exact retryExecAux_err body (m + 1) hbody (m + 1) st e st' h

/-- With total size lookups, the verification block only returns Booleans —
it never raises. -/
theorem verify_err (w : World) (remote dest : String) (st : DlState)
    (hlook : ∀ p, ∃ s : Int, w.fileSize p = Except.ok s)
    (e : Exc) (st' : DlState)
    (h : verifyAndPromote w remote dest st = (Except.error e, st')) : False := by
  obtain ⟨s, hs⟩ := hlook remote
  cases hl : fsLookup st.fs (tmpName dest) with
  | none =>
    simp only [verifyAndPromote, hl] at h
    exact Except.noConfusion (congrArg Prod.fst h)
  | some ls =>
    simp only [verifyAndPromote, hl, getFileSizeM, hs] at h
    by_cases hsz : (ls : Int) = s
    · rw [if_pos hsz] at h
      exact Except.noConfusion (congrArg Prod.fst h)
    · rw [if_neg hsz] at h
      exact Except.noConfusion (congrArg Prod.fst h)

/-- With total size lookups and no session-fatal transfer faults, one
ftplib attempt only fails with non-session-fatal errors. -/
theorem ftpOnce_err (w : World) (remote dest : String)
    (hlook : ∀ p, ∃ s : Int, w.fileSize p = Except.ok s)
    (hftp : ∀ k e2 lo, w.ftpAttempt k = TransferOutcome.failure e2 lo →
      isSocketErr e2 = false)
    (st : DlState) (e : Exc) (st' : DlState)
    (h : downloadUsingFtplibOnce w remote dest st = (Except.error e, st')) :
    isSocketErr e = false := by
  revert h
  unfold downloadUsingFtplibOnce ftpTransferM
  cases hatt : w.ftpAttempt st.ftpCount with
  | success b =>
    intro h
    exact absurd h (fun hcontra => verify_err w remote dest _ hlook e st' hcontra)
  | failure e2 lo =>
    intro h
    have he : e2 = e := by
      cases lo with
      | none =>
        have := congrArg Prod.fst h
        simpa using this
      | some b =>
        have := congrArg Prod.fst h
        simpa using this
    rw [← he]
    exact hftp st.ftpCount e2 lo hatt

/-- Claim C2 counterexample: with the destination file already present
(size 5) and a remote listing that does not contain the file — so that the
get_file_size lookup raises EasyFtpError, exactly as get_file_size does on
an empty directory listing — download_file propagates that exception to the
caller instead of returning a Boolean: the pre-existing-destination check
(line 462) performs the lookup outside any try block. -/
theorem download_raises_on_precheck_lookup_cex :
    (download_file
        ⟨fun _ => get_file_size_pure "a.txt" [],
         fun _ => TransferOutcome.success 5,
         fun _ => TransferOutcome.success 5, Except.ok ()⟩
        (some 2) 3 "/r/a.txt" "a.txt"
        ⟨[("a.txt", 5)], 0, 0, [], true⟩).1
      = Except.error (Exc.easyFtpError "File, a.txt not found.") := rfl

/-- Claim C2 (amended): provided the listing-lookup oracle never faults,
the session is already established, and no ftplib transfer attempt fails
with a session-fatal (socket-level) error, download_file never raises: it
returns Except.ok true or Except.ok false after its fallback paths are
spent.  (Without those provisos the call can raise: the
pre-existing-destination size lookup and the session re-setup run outside
any try block, and an unbounded chain of session-fatal faults never
returns.) -/
theorem download_no_raise (w : World) (n? : Option Nat)
    (remote dest : String) (st : DlState) (fuel : Nat)
    (hset : st.hasFtp = true)
    (hlook : ∀ p, ∃ s : Int, w.fileSize p = Except.ok s)
    (hftp : ∀ k e lo, w.ftpAttempt k = TransferOutcome.failure e lo →
      isSocketErr e = false) :
    ∃ (b : Bool) (st' : DlState),
      download_file w n? (fuel + 1) remote dest st = (Except.ok b, st') := by
  have transports : ∀ (recurse : DlState → Except Exc Bool × DlState)
      (st0 : DlState), st0.hasFtp = true →
      ∃ (b : Bool) (st' : DlState),
        downloadTransports w n? recurse remote dest st0 = (Except.ok b, st') := by
    intro recurse st0 hftp0
    unfold downloadTransports
    cases hurl : retryExec n? (downloadUsingUrllib2Once w remote dest) st0 with
    | mk r2 st2 =>
      have hftp2 : st2.hasFtp = true := by
        have := retryExec_pres n? (downloadUsingUrllib2Once w remote dest)
          (fun s => s.hasFtp = true)
          (fun s hs => (urlOnce_hasFtp w remote dest s).trans hs) st0 hftp0
        rw [hurl] at this
        exact this
      have hrest : ∃ (b : Bool) (st' : DlState),
          downloadRest w n? recurse remote dest st2 = (Except.ok b, st') := by
        unfold downloadRest
        rw [if_pos hftp2]
        simp only
        cases hfret : retryExec n? (downloadUsingFtplibOnce w remote dest) st2 with
        | mk r3 st3 =>
          cases r3 with
          | ok b =>
            cases b with
            | true => exact ⟨true, st3, rfl⟩
            | false => exact ⟨false, st3, rfl⟩
          | error e =>
            have hns : isSocketErr e = false :=
              retryExec_err n? _ (ftpOnce_err w remote dest hlook hftp)
                st2 e st3 hfret
            simp only [hns, Bool.false_eq_true, if_false]
            exact ⟨false, st3, rfl⟩
      cases r2 with
      | ok b =>
        cases b with
        | true => exact ⟨true, st2, rfl⟩
        | false => exact hrest
      | error e => exact hrest
  cases hpre : fsLookup st.fs dest with
  | none =>
    simp only [download_file, hpre]
    exact transports _ st hset
  | some ls =>
    obtain ⟨s, hs⟩ := hlook remote
    simp only [download_file, hpre, getFileSizeM, hs]
    by_cases heq : s = (ls : Int)
    · rw [if_pos heq]
      exact ⟨true, _, rfl⟩
    · rw [if_neg heq]
      exact transports _ _ hset

/-- Claim C2 witness: both transports fail with non-socket errors against a
listing that reports size 7 while nothing is ever written correctly, and the
call still returns a Boolean (False). -/
theorem download_no_raise_witness :
    ∃ (b : Bool) (st' : DlState),
      download_file
          ⟨fun _ => Except.ok 7,
           fun _ => TransferOutcome.failure (Exc.otherError 1) none,
           fun _ => TransferOutcome.failure Exc.valueError (some 0),
           Except.ok ()⟩
          (some 2) 1 "/r/a.txt" "a.txt" ⟨[], 0, 0, [], true⟩
        = (Except.ok b, st') :=
  download_no_raise
    ⟨fun _ => Except.ok 7,
     fun _ => TransferOutcome.failure (Exc.otherError 1) none,
     fun _ => TransferOutcome.failure Exc.valueError (some 0),
     Except.ok ()⟩
    (some 2) "/r/a.txt" "a.txt" ⟨[], 0, 0, [], true⟩ 0 rfl
    (fun _ => ⟨7, rfl⟩)
    (fun k e lo h => by
      cases h
      rfl)

/-! ## Event-trace lemmas: the urllib2 transport is always tried before the
ftplib transport -/

theorem urlTransfer_events (w : World) (tmp : String) (st : DlState) :
    (urlTransferM w tmp st).2.events = st.events ++ [Ev.urlTransfer] := by
  unfold urlTransferM
  cases w.urlAttempt st.urlCount with
  | success b => rfl
  | failure e lo => cases lo <;> rfl

theorem ftpTransfer_events (w : World) (tmp : String) (st : DlState) :
    (ftpTransferM w tmp st).2.events = st.events ++ [Ev.ftpTransfer] := by
  unfold ftpTransferM
  cases w.ftpAttempt st.ftpCount with
  | success b => rfl
  | failure e lo => cases lo <;> rfl

theorem verify_events (w : World) (remote dest : String) (st : DlState) :
    ∃ new, (verifyAndPromote w remote dest st).2.events = st.events ++ new := by
  cases hl : fsLookup st.fs (tmpName dest) with
  | none => exact ⟨[], by simp [verifyAndPromote, hl]⟩
  | some ls =>
    cases hfs : w.fileSize remote with
    | error e =>
      exact ⟨[Ev.sizeLookup remote], by simp [verifyAndPromote, hl, getFileSizeM, hfs]⟩
    | ok rs =>
      refine ⟨[Ev.sizeLookup remote], ?_⟩
      simp only [verifyAndPromote, hl, getFileSizeM, hfs]
      by_cases hsz : (ls : Int) = rs
      · rw [if_pos hsz]
      · rw [if_neg hsz]

/-- One urllib2 attempt records urlTransfer first, then possibly more
events. -/
theorem urlOnce_events (w : World) (remote dest : String) (st : DlState) :
    ∃ tail, (downloadUsingUrllib2Once w remote dest st).2.events
      = st.events ++ (Ev.urlTransfer :: tail) := by
  unfold downloadUsingUrllib2Once
  cases hres : urlTransferM w (tmpName dest) st with
  | mk r st1 =>
    have h1 : st1.events = st.events ++ [Ev.urlTransfer] := by
      have := urlTransfer_events w (tmpName dest) st
      rw [hres] at this
      exact this
    cases r with
    | error e => exact ⟨[], h1⟩
    | ok u =>
      obtain ⟨new, hnew⟩ := verify_events w remote dest st1
      refine ⟨new, ?_⟩
      rw [hnew, h1, List.append_assoc]
      rfl

/-- One ftplib attempt only appends events. -/
theorem ftpOnce_events (w : World) (remote dest : String) (st : DlState) :
    ∃ new, (downloadUsingFtplibOnce w remote dest st).2.events
      = st.events ++ new := by
  unfold downloadUsingFtplibOnce
  cases hres : ftpTransferM w (tmpName dest)
      { st with fs := fsRemove st.fs (tmpName dest) } with
  | mk r st1 =>
    have h1 : st1.events = st.events ++ [Ev.ftpTransfer] := by
      have := ftpTransfer_events w (tmpName dest)
        { st with fs := fsRemove st.fs (tmpName dest) }
      rw [hres] at this
      exact this
    cases r with
    | error e => exact ⟨[Ev.ftpTransfer], h1⟩
    | ok u =>
      obtain ⟨new, hnew⟩ := verify_events w remote dest st1
      exact ⟨[Ev.ftpTransfer] ++ new, by rw [hnew, h1, List.append_assoc]⟩

/-- The retry loop only appends events when its body does. -/
theorem retryExecAux_events (body : DlState → Except Exc α × DlState)
    (n : Nat) (hbody : ∀ st, ∃ new, (body st).2.events = st.events ++ new) :
    ∀ (rem : Nat) (st : DlState),
      ∃ new, (retryExecAux body n rem st).2.events = st.events ++ new := by
  intro rem
  induction rem with
  | zero => intro st; exact ⟨[], by simp [retryExecAux]⟩
  | succ m ih =>
    intro st
    cases hb : body st with
    | mk r st1 =>
      have h1 : ∃ new, st1.events = st.events ++ new := by
        obtain ⟨new, hnew⟩ := hbody st
        rw [hb] at hnew
        exact ⟨new, hnew⟩
      obtain ⟨n1, hn1⟩ := h1
      cases r with
      | ok a => exact ⟨n1, by simp only [retryExecAux, hb]; exact hn1⟩
      | error e =>
        simp only [retryExecAux, hb]
        by_cases hs : isSocketErr e = true
        · rw [if_pos hs]; exact ⟨n1, hn1⟩
        · rw [if_neg hs]
          obtain ⟨n2, hn2⟩ := ih st1
          exact ⟨n1 ++ n2, by rw [hn2, hn1, List.append_assoc]⟩

theorem retryExec_events (n? : Option Nat)
    (body : DlState → Except Exc α × DlState)
    (hbody : ∀ st, ∃ new, (body st).2.events = st.events ++ new)
    (st : DlState) :
    ∃ new, (retryExec n? body st).2.events = st.events ++ new := by
  cases n? with
  | none => exact hbody st
  | some n =>
    cases n with
    | zero => exact hbody st
    | succ m => exact retryExecAux_events body (m + 1) hbody (m + 1) st

/-- The url retry records urlTransfer as its very first event. -/
theorem retryExec_url_events (w : World) (n? : Option Nat)
    (remote dest : String) :
    ∀ st, ∃ tail,
      (retryExec n? (downloadUsingUrllib2Once w remote dest) st).2.events
        = st.events ++ (Ev.urlTransfer :: tail) := by
  have aux : ∀ (rem n : Nat) (st : DlState),
      ∃ tail, (retryExecAux (downloadUsingUrllib2Once w remote dest) n (rem + 1) st).2.events
        = st.events ++ (Ev.urlTransfer :: tail) := by
    intro rem n st
    cases hb : downloadUsingUrllib2Once w remote dest st with
    | mk r st1 =>
      have h1 : ∃ tail, st1.events = st.events ++ (Ev.urlTransfer :: tail) := by
        obtain ⟨tail, htail⟩ := urlOnce_events w remote dest st
        rw [hb] at htail
        exact ⟨tail, htail⟩
      obtain ⟨t1, ht1⟩ := h1
      cases r with
      | ok a => exact ⟨t1, by simp only [retryExecAux, hb]; exact ht1⟩
      | error e =>
        simp only [retryExecAux, hb]
        by_cases hs : isSocketErr e = true
        · rw [if_pos hs]; exact ⟨t1, ht1⟩
        · rw [if_neg hs]
          obtain ⟨n2, hn2⟩ := retryExecAux_events
            (downloadUsingUrllib2Once w remote dest) n
            (fun s => (urlOnce_events w remote dest s).elim
              fun t h => ⟨Ev.urlTransfer :: t, h⟩) rem st1
          refine ⟨t1 ++ n2, ?_⟩
          rw [hn2, ht1, List.append_assoc]
          rfl
  intro st
  cases n? with
  | none => exact urlOnce_events w remote dest st
  | some n =>
    cases n with
    | zero => exact urlOnce_events w remote dest st
    | succ m => exact aux m (m + 1) st

theorem runSetup_events (w : World) (st : DlState) :
    (runSetup w st).2.events = st.events ++ [Ev.setupCall] := by
  unfold runSetup
  cases w.setupResult <;> rfl

/-- downloadRest only appends events, when the recursive call does. -/
theorem downloadRest_events (w : World) (n? : Option Nat)
    (remote dest : String)
    (recurse : DlState → Except Exc Bool × DlState)
    (hrec : ∀ st, ∃ new, (recurse st).2.events = st.events ++ new)
    (st : DlState) :
    ∃ new, (downloadRest w n? recurse remote dest st).2.events
      = st.events ++ new := by
  unfold downloadRest
  cases hens : (if st.hasFtp then ((Except.ok (), st) : Except Exc Unit × DlState)
      else runSetup w st) with
  | mk re st1 =>
    have h1 : ∃ n1, st1.events = st.events ++ n1 := by
      by_cases hftp : st.hasFtp
      · rw [if_pos hftp] at hens
        cases hens
        exact ⟨[], by simp⟩
      · rw [if_neg hftp] at hens
        have := runSetup_events w st
        rw [hens] at this
        exact ⟨[Ev.setupCall], this⟩
    obtain ⟨n1, hn1⟩ := h1
    cases re with
    | error e => exact ⟨n1, hn1⟩
    | ok u =>
      simp only
      cases hfret : retryExec n? (downloadUsingFtplibOnce w remote dest) st1 with
      | mk r3 st3 =>
        have h3 : ∃ n3, st3.events = st1.events ++ n3 := by
          obtain ⟨n3, hn3⟩ := retryExec_events n? _
            (fun s => ftpOnce_events w remote dest s) st1
          rw [hfret] at hn3
          exact ⟨n3, hn3⟩
        obtain ⟨n3, hn3⟩ := h3
        have h13 : st3.events = st.events ++ (n1 ++ n3) := by
          rw [hn3, hn1, List.append_assoc]
        cases r3 with
        | ok b =>
          cases b with
          | true => exact ⟨n1 ++ n3, h13⟩
          | false => exact ⟨n1 ++ n3, h13⟩
        | error e =>
          simp only
          by_cases hs : isSocketErr e = true
          · rw [if_pos hs]
            obtain ⟨n4, hn4⟩ := hrec st3
            refine ⟨n1 ++ n3 ++ n4, ?_⟩
            rw [hn4, h13, List.append_assoc]
          · rw [if_neg hs]
            exact ⟨n1 ++ n3, h13⟩

/-- The transport section records urlTransfer as its first event. -/
theorem downloadTransports_events (w : World) (n? : Option Nat)
    (remote dest : String)
    (recurse : DlState → Except Exc Bool × DlState)
    (hrec : ∀ st, ∃ new, (recurse st).2.events = st.events ++ new)
    (st : DlState) :
    ∃ tail, (downloadTransports w n? recurse remote dest st).2.events
      = st.events ++ (Ev.urlTransfer :: tail) := by
  unfold downloadTransports
  cases hurl : retryExec n? (downloadUsingUrllib2Once w remote dest) st with
  | mk r2 st2 =>
    have h2 : ∃ t1, st2.events = st.events ++ (Ev.urlTransfer :: t1) := by
      obtain ⟨t1, ht1⟩ := retryExec_url_events w n? remote dest st
      rw [hurl] at ht1
      exact ⟨t1, ht1⟩
    obtain ⟨t1, ht1⟩ := h2
    have hafter : ∀ st' : DlState, (∃ n2, st'.events = st2.events ++ n2) →
        ∃ tail, st'.events = st.events ++ (Ev.urlTransfer :: tail) := by
      rintro st' ⟨n2, hn2⟩
      refine ⟨t1 ++ n2, ?_⟩
      rw [hn2, ht1, List.append_assoc]
      rfl
    cases r2 with
    | ok b =>
      cases b with
      | true => exact ⟨t1, ht1⟩
      | false =>
        exact hafter _ (downloadRest_events w n? remote dest recurse hrec st2)
    | error e =>
      exact hafter _ (downloadRest_events w n? remote dest recurse hrec st2)

/-- download_file only appends events. -/
theorem download_file_events (w : World) (n? : Option Nat) :
    ∀ (fuel : Nat) (remote dest : String) (st : DlState),
      ∃ new, (download_file w n? fuel remote dest st).2.events
        = st.events ++ new := by
  intro fuel
  induction fuel with
  | zero => intro remote dest st; exact ⟨[], by simp [download_file]⟩
  | succ m ih =>
    intro remote dest st
    cases hpre : fsLookup st.fs dest with
    | none =>
      simp only [download_file, hpre]
      obtain ⟨tail, htail⟩ := downloadTransports_events w n? remote dest
        (fun st3 => download_file w n? m remote dest st3)
        (fun st3 => ih remote dest st3) st
      exact ⟨Ev.urlTransfer :: tail, htail⟩
    | some ls =>
      cases hfs : w.fileSize remote with
      | error e =>
        simp only [download_file, hpre, getFileSizeM, hfs]
        exact ⟨[Ev.sizeLookup remote], rfl⟩
      | ok rs =>
        simp only [download_file, hpre, getFileSizeM, hfs]
        by_cases heq : rs = (ls : Int)
        · rw [if_pos heq]
          exact ⟨[Ev.sizeLookup remote], rfl⟩
        · rw [if_neg heq]
          obtain ⟨tail, htail⟩ := downloadTransports_events w n? remote dest
            (fun st3 => download_file w n? m remote dest st3)
            (fun st3 => ih remote dest st3)
            { st with events := st.events ++ [Ev.sizeLookup remote] }
          refine ⟨Ev.sizeLookup remote :: Ev.urlTransfer :: tail, ?_⟩
          rw [htail]
          simp

/-- In a trace of the form pre ++ urlTransfer :: tail with no ftpTransfer in
pre, every ftpTransfer is preceded by a urlTransfer. -/
theorem ord_url_in_front (pre tail : List Ev) (hpre : Ev.ftpTransfer ∉ pre) :
    ∀ i : Nat, (pre ++ Ev.urlTransfer :: tail).get? i = some Ev.ftpTransfer →
      ∃ j : Nat, j < i ∧
        (pre ++ Ev.urlTransfer :: tail).get? j = some Ev.urlTransfer := by
  intro i hi
  refine ⟨pre.length, ?_, ?_⟩
  · rcases Nat.lt_trichotomy i pre.length with hlt | heq | hgt
    · rw [List.get?_append hlt] at hi
      exact absurd (List.get?_mem hi) hpre
    · rw [heq, List.get?_append_right (Nat.le_refl _)] at hi
      simp at hi
    · exact hgt
  · rw [List.get?_append_right (Nat.le_refl _)]
    simp

/-- A trace without ftpTransfer satisfies the ordering vacuously. -/
theorem ord_of_no_ftp (new : List Ev) (h : Ev.ftpTransfer ∉ new) :
    ∀ i : Nat, new.get? i = some Ev.ftpTransfer →
      ∃ j : Nat, j < i ∧ new.get? j = some Ev.urlTransfer :=
  fun _ hi => absurd (List.get?_mem hi) h

/-- Claim C8: on every download_file call, the events recorded by the run
form a suffix new appended to the prior trace in which every ftplib
transfer is preceded by an earlier urllib2 transfer: when the
pre-existing-destination check does not short-circuit, the Fallback
Transport (urllib2) is attempted first, and the Primary Transport (ftplib)
only after that attempt has failed (runs that short-circuit record no
transfer at all, satisfying the ordering vacuously). -/
theorem download_url_attempted_first (w : World) (n? : Option Nat)
    (fuel : Nat) (remote dest : String) (st : DlState) :
    ∃ new, (download_file w n? fuel remote dest st).2.events
        = st.events ++ new ∧
      ∀ i : Nat, new.get? i = some Ev.ftpTransfer →
        ∃ j : Nat, j < i ∧ new.get? j = some Ev.urlTransfer := by
  cases fuel with
  | zero =>
    refine ⟨[], by simp [download_file], ord_of_no_ftp [] (by simp)⟩
  | succ m =>
    cases hpre : fsLookup st.fs dest with
    | none =>
      obtain ⟨tail, htail⟩ := downloadTransports_events w n? remote dest
        (fun st3 => download_file w n? m remote dest st3)
        (fun st3 => download_file_events w n? m remote dest st3) st
      refine ⟨Ev.urlTransfer :: tail, ?_, ?_⟩
      · simp only [download_file, hpre]
        exact htail
      · have := ord_url_in_front [] tail (by simp)
        simpa using this
    | some ls =>
      cases hfs : w.fileSize remote with
      | error e =>
        refine ⟨[Ev.sizeLookup remote], ?_, ?_⟩
        · simp only [download_file, hpre, getFileSizeM, hfs]
        · exact ord_of_no_ftp [Ev.sizeLookup remote] (by simp)
      | ok rs =>
        by_cases heq : rs = (ls : Int)
        · refine ⟨[Ev.sizeLookup remote], ?_, ?_⟩
          · simp only [download_file, hpre, getFileSizeM, hfs]
            rw [if_pos heq]
          · exact ord_of_no_ftp [Ev.sizeLookup remote] (by simp)
        · obtain ⟨tail, htail⟩ := downloadTransports_events w n? remote dest
            (fun st3 => download_file w n? m remote dest st3)
            (fun st3 => download_file_events w n? m remote dest st3)
            { st with events := st.events ++ [Ev.sizeLookup remote] }
          refine ⟨Ev.sizeLookup remote :: Ev.urlTransfer :: tail, ?_, ?_⟩
          · simp only [download_file, hpre, getFileSizeM, hfs]
            rw [if_neg heq, htail]
            simp
          · have := ord_url_in_front [Ev.sizeLookup remote] tail (by simp)
            simpa using this

/-- Claim C8 witness: with the urllib2 transfer failing and the ftplib
transfer succeeding, the recorded trace indeed places a urlTransfer before
the ftpTransfer. -/
theorem download_url_attempted_first_witness :
    ∃ new,
      (download_file
          ⟨fun _ => Except.ok 7,
           fun _ => TransferOutcome.failure (Exc.otherError 1) none,
           fun _ => TransferOutcome.success 7, Except.ok ()⟩
          (some 1) 2 "/r/a.txt" "a.txt" ⟨[], 0, 0, [], true⟩).2.events
        = ([] : List Ev) ++ new ∧
      ∀ i : Nat, new.get? i = some Ev.ftpTransfer →
        ∃ j : Nat, j < i ∧ new.get? j = some Ev.urlTransfer :=
  download_url_attempted_first
    ⟨fun _ => Except.ok 7,
     fun _ => TransferOutcome.failure (Exc.otherError 1) none,
     fun _ => TransferOutcome.success 7, Except.ok ()⟩
    (some 1) 2 "/r/a.txt" "a.txt" ⟨[], 0, 0, [], true⟩

end EasyFtp
